import Mathlib

/-!
Shallow embedding of the response parser of `src/lib/responseParser.ts`
(the chat client's AI-response → structured-visual-sections pipeline), together
with theorems checking the specification's claims about it.

Strings are modelled as `List Char` (one entry per Unicode code point); the
few places where JavaScript's UTF-16 view of strings is observable
(`String.prototype.length`, `slice`, `substring`) use explicit UTF-16
code-unit counting (`u16Len`, `take16`, `drop16`).  JavaScript numbers are
modelled as exact rationals, with `Option ℚ` where `NaN` can arise
(`none` = NaN); this abstracts from binary64 rounding, which no behaviour
checked here depends on.  Regular expressions are modelled by a small
backtracking engine (`RE`, `reM`) whose alternative ordering and greedy/lazy
quantifier priorities follow JavaScript semantics, plus direct deterministic
scanners for the anchored single-line patterns.
-/

set_option maxRecDepth 10000

abbrev Str := List Char

/-- ASCII lower-casing, the fragment of `String.prototype.toLowerCase`
exercised by the parser (all vocabulary involved is ASCII). -/
def lowerChar (c : Char) : Char :=
  if 'A' ≤ c ∧ c ≤ 'Z' then Char.ofNat (c.toNat + 32) else c

def lowerStr (s : Str) : Str := s.map lowerChar

/-- Case-insensitive character comparison (ASCII fold), for `i`-flagged
regular expressions. -/
def ciEq (a b : Char) : Bool := lowerChar a = lowerChar b

def isDigitCh (c : Char) : Bool := '0' ≤ c ∧ c ≤ '9'

def isWordCh (c : Char) : Bool :=
  ('a' ≤ c ∧ c ≤ 'z') ∨ ('A' ≤ c ∧ c ≤ 'Z') ∨ isDigitCh c ∨ c = '_'

def isAsciiUpper (c : Char) : Bool := 'A' ≤ c ∧ c ≤ 'Z'

def isAsciiAlpha (c : Char) : Bool := ('a' ≤ c ∧ c ≤ 'z') ∨ ('A' ≤ c ∧ c ≤ 'Z')

/-- The JavaScript `\s` class (also the set trimmed by `String.prototype.trim`). -/
def isSpaceCh (c : Char) : Bool :=
  c = ' ' ∨ c = '\t' ∨ c = '\n' ∨ c = '\x0b' ∨ c = '\x0c' ∨ c = '\r' ∨
  c = '\u00A0' ∨ c = '\u1680' ∨ ('\u2000' ≤ c ∧ c ≤ '\u200A') ∨
  c = '\u2028' ∨ c = '\u2029' ∨ c = '\u202F' ∨ c = '\u205F' ∨
  c = '\u3000' ∨ c = '\uFEFF'

/-- The JavaScript `.` class without the `s` flag: anything but a line
terminator. -/
def isDotCh (c : Char) : Bool :=
  ¬ (c = '\n' ∨ c = '\r' ∨ c = '\u2028' ∨ c = '\u2029')

/-- `String.prototype.trim`. -/
def jsTrim (s : Str) : Str :=
  (s.dropWhile (isSpaceCh ·)).reverse.dropWhile (isSpaceCh ·) |>.reverse

/-- `String.prototype.split('\n')`. -/
def splitNl (s : Str) : List Str :=
  s.splitOn '\n' |>.map id

/-- UTF-16 code-unit width of one code point. -/
def u16Width (c : Char) : Nat := if c.toNat < 0x10000 then 1 else 2

/-- `String.prototype.length` (UTF-16 code units). -/
def u16Len (s : Str) : Nat := (s.map u16Width).sum

/-- Drop the first `n` UTF-16 code units (a code point straddling the cut is
dropped whole). -/
def drop16 (n : Nat) (s : Str) : Str :=
  match s, n with
  | s, 0 => s
  | [], _ => []
  | c :: t, n+1 =>
    match u16Width c, n with
    | 2, 0 => t
    | 2, m+1 => drop16 m t
    | _, m => drop16 m t

/-- Take the first `n` UTF-16 code units (a code point straddling the cut is
dropped). -/
def take16 (n : Nat) (s : Str) : Str :=
  match s, n with
  | _, 0 => []
  | [], _ => []
  | c :: t, n+1 =>
    match u16Width c, n with
    | 2, 0 => []
    | 2, m+1 => c :: take16 m t
    | _, m => c :: take16 m t

/-- First occurrence of `pat` as a contiguous sublist of `s`, if any:
the index where it starts. -/
def findSub (s pat : Str) : Option Nat :=
  match s with
  | [] => if pat = [] then some 0 else none
  | _ :: t => if pat.isPrefixOf s then some 0 else (findSub t pat).map (· + 1)

/-- `String.prototype.replace` with a plain-string pattern: replace the first
occurrence of `pat` by `rep`. -/
def replaceFirst (s pat rep : Str) : Str :=
  match findSub s pat with
  | none => s
  | some i => s.take i ++ rep ++ s.drop (i + pat.length)

/-- Numeric value of a digit string. -/
def digitsVal (ds : Str) : Nat :=
  ds.foldl (fun a c => a * 10 + (c.toNat - '0'.toNat)) 0

/-- JavaScript `parseFloat`, restricted to decimal notation (the parser never
feeds it exponent syntax): longest valid numeric prefix; `none` is `NaN`.
Built with `Rat.divInt` so that concrete values reduce in the kernel. -/
def parseFloatQ (s : Str) : Option ℚ :=
  let s := s.dropWhile (isSpaceCh ·)
  let (sgn, s) : ℤ × Str :=
    match s with
    | c :: t => if c = '-' then (-1, t) else if c = '+' then (1, t) else (1, c :: t)
    | [] => (1, [])
  let ip := s.takeWhile (isDigitCh ·)
  let s1 := s.drop ip.length
  match s1 with
  | '.' :: t =>
    let fp := t.takeWhile (isDigitCh ·)
    if ip = [] ∧ fp = [] then none
    else some (Rat.divInt (sgn * (digitsVal ip * 10 ^ fp.length + digitsVal fp)) (10 ^ fp.length))
  | _ => if ip = [] then none else some (Rat.divInt (sgn * digitsVal ip) 1)

/-- JavaScript `parseInt` with no radix argument, restricted to the decimal
strings the parser feeds it. -/
def parseIntQ (s : Str) : Option ℚ :=
  let s := s.dropWhile (isSpaceCh ·)
  let (sgn, s) : ℤ × Str :=
    match s with
    | '-' :: t => (-1, t)
    | '+' :: t => (1, t)
    | _ => (1, s)
  let ip := s.takeWhile (isDigitCh ·)
  if ip = [] then none
  else some (Rat.divInt (sgn * digitsVal ip) 1)

example : parseFloatQ "28382.95".toList = some (Rat.divInt 2838295 100) := by decide
example : parseFloatQ ",".toList = none := by decide
example : parseFloatQ ".5".toList = some (Rat.divInt 1 2) := by decide
example : parseIntQ "17".toList = some 17 := by decide
example : jsTrim "  ab c\n".toList = "ab c".toList := by decide
example : replaceFirst "xabcabc".toList "abc".toList [] = "xabc".toList := by decide
example : u16Len "a🔥b".toList = 4 := by decide
example : drop16 2 "🔥 ok".toList = " ok".toList := by decide
example : take16 2 "✅ yes".toList = "✅ ".toList := by decide
example : splitNl "a\nb\n".toList = ["a".toList, "b".toList, []] := by decide

/-!
A small backtracking regular-expression engine.  Alternation tries the left
branch first, `star` is greedy and `starL` lazy, mirroring the priority
order of JavaScript regular expressions.  Positions index into a fixed
subject string `orig`; captures record `(group, start, stop)` spans, most
recent first.  The fuel argument only bounds quantifier unfolding and is
always called with `orig.length + 1`, which a quantifier iteration (each
consuming at least one character) can never exhaust.
-/

inductive RE where
  | eps
  | cls (p : Char → Bool)
  | cat (a b : RE)
  | alt (a b : RE)
  | star (a : RE)
  | starL (a : RE)
  | grp (n : Nat) (a : RE)
  | bol (multi : Bool)
  | eol (multi : Bool)
  | look (a : RE)

abbrev Caps := List (Nat × Nat × Nat)

/-- One engine layer, structurally recursive on the regular expression;
`next` is the engine at one less unit of fuel, used when a quantifier
iterates (after consuming at least one character). -/
def reMF (orig : Str)
    (next : RE → Nat → Caps → (Nat → Caps → Option (Nat × Caps)) → Option (Nat × Caps)) :
    RE → Nat → Caps → (Nat → Caps → Option (Nat × Caps)) → Option (Nat × Caps)
  | .eps, i, c, k => k i c
  | .cls p, i, c, k =>
    match orig.get? i with
    | some ch => if p ch then k (i+1) c else none
    | none => none
  | .cat a b, i, c, k =>
    reMF orig next a i c (fun j c1 => reMF orig next b j c1 k)
  | .alt a b, i, c, k =>
    (reMF orig next a i c k).orElse (fun _ => reMF orig next b i c k)
  | .star a, i, c, k =>
    (reMF orig next a i c (fun j c1 =>
      if i < j then next (.star a) j c1 k else none)).orElse
      (fun _ => k i c)
  | .starL a, i, c, k =>
    (k i c).orElse (fun _ =>
      reMF orig next a i c (fun j c1 =>
        if i < j then next (.starL a) j c1 k else none))
  | .grp n a, i, c, k =>
    reMF orig next a i c (fun j c1 => k j ((n, i, j) :: c1))
  | .bol multi, i, c, k =>
    if i = 0 ∨ (multi ∧ orig.get? (i-1) = some '\n') then k i c else none
  | .eol multi, i, c, k =>
    if i = orig.length ∨ (multi ∧ orig.get? i = some '\n') then k i c else none
  | .look a, i, c, k =>
    match reMF orig next a i c (fun j c1 => some (j, c1)) with
    | some _ => k i c
    | none => none

def reM (orig : Str) : Nat → RE → Nat → Caps →
    (Nat → Caps → Option (Nat × Caps)) → Option (Nat × Caps)
  | 0 => reMF orig (fun _ i c k => k i c)
  | fuel+1 => reMF orig (reM orig fuel)

def lit (s : Str) : RE := s.foldr (fun ch r => .cat (.cls (· = ch)) r) .eps

def litCI (s : Str) : RE := s.foldr (fun ch r => .cat (.cls (ciEq · ch)) r) .eps

def reOpt (a : RE) : RE := .alt a .eps

def rePlus (a : RE) : RE := .cat a (.star a)

def rePlusL (a : RE) : RE := .cat a (.starL a)

/-- Try to match `re` at position `i` of `orig`; on success return the end
position and the captures. -/
def reRunAt (re : RE) (orig : Str) (i : Nat) : Option (Nat × Caps) :=
  reM orig (orig.length + 1) re i [] (fun j c => some (j, c))

def reSearchAux (re : RE) (orig : Str) : Nat → Nat → Option (Nat × Nat × Caps)
  | 0, i =>
    match reRunAt re orig i with
    | some (j, c) => some (i, j, c)
    | none => none
  | f+1, i =>
    match reRunAt re orig i with
    | some (j, c) => some (i, j, c)
    | none => if i < orig.length then reSearchAux re orig f (i+1) else none

/-- Leftmost match of `re` in `orig` starting at or after `start`:
`(start, stop, caps)`.  This is `String.prototype.match` without the `g`
flag (`match.index` = first component). -/
def reSearchFrom (re : RE) (orig : Str) (start : Nat) : Option (Nat × Nat × Caps) :=
  reSearchAux re orig (orig.length - start) start

def reSearch (re : RE) (orig : Str) : Option (Nat × Nat × Caps) :=
  reSearchFrom re orig 0

def reMatchAllAux (re : RE) (orig : Str) : Nat → Nat → List (Nat × Nat × Caps)
  | 0, _ => []
  | f+1, pos =>
    match reSearchFrom re orig pos with
    | none => []
    | some (i, j, c) =>
      (i, j, c) :: reMatchAllAux re orig f (if i < j then j else j + 1)

/-- All matches, left to right, non-overlapping: `String.prototype.matchAll`
(also the match list of `String.prototype.match` with the `g` flag). -/
def reMatchAll (re : RE) (orig : Str) : List (Nat × Nat × Caps) :=
  reMatchAllAux re orig (orig.length + 2) 0

/-- The span of `orig` from `i` (inclusive) to `j` (exclusive). -/
def subStr (orig : Str) (i j : Nat) : Str := (orig.drop i).take (j - i)

/-- Content of capture group `n` (`undefined` when the group did not
participate in the match). -/
def capStr (orig : Str) (caps : Caps) (n : Nat) : Option Str :=
  (caps.find? (fun e => e.1 = n)).map (fun e => subStr orig e.2.1 e.2.2)

/-- Remove the given (sorted, disjoint) spans from `orig`. -/
def removeSpans (orig : Str) (spans : List (Nat × Nat)) : Str :=
  (List.range orig.length).filterMap (fun ix =>
    if spans.any (fun sp => sp.1 ≤ ix ∧ ix < sp.2) then none else orig.get? ix)

/-- `String.prototype.replace` with a non-global regular expression and the
empty replacement string. -/
def reStripFirst (re : RE) (orig : Str) : Str :=
  match reSearch re orig with
  | none => orig
  | some (i, j, _) => removeSpans orig [(i, j)]

/-- `String.prototype.replace` with a global regular expression and the
empty replacement string. -/
def reStripAll (re : RE) (orig : Str) : Str :=
  removeSpans orig ((reMatchAll re orig).map (fun m => (m.1, m.2.1)))

example :
    reRunAt (.cat (.star (.cls (· = 'a'))) (.cls (· = 'a'))) "aaa".toList 0 =
      some (3, []) := by decide
example :
    reSearch (.cat (.bol true) (.cat (litCI "b".toList) (.eol true)))
      "aa\nb\ncc".toList = some (3, 4, []) := by decide
example :
    (reMatchAll (rePlus (.cls isDigitCh)) "12 345 6".toList).map
      (fun m => subStr "12 345 6".toList m.1 m.2.1) =
      ["12".toList, "345".toList, "6".toList] := by decide
example :
    capStr "ab:7".toList
      (match reRunAt (.cat (.grp 1 (rePlusL (.cls (· ≠ ':')))) (.cls (· = ':')))
        "ab:7".toList 0 with
       | some (_, c) => c
       | none => []) 1 = some "ab".toList := by decide
example : reStripAll (rePlus (.cls (· = 'x'))) "axbxxc".toList = "abc".toList := by decide

/-! ## Data model (the exported interfaces of `responseParser.ts`) -/

inductive JVal where
  | str (s : Str)
  | num (q : ℚ)
  | nan
  deriving DecidableEq

structure KTrend where
  direction : Str
  value : Option ℚ
  label : Option Str
  deriving DecidableEq

structure KPICard where
  label : Str
  value : JVal
  unit : Option Str
  trend : Option KTrend
  deriving DecidableEq

structure InsightItem where
  text : Str
  icon : Option Str
  type : Option Str
  deriving DecidableEq

structure MenuEngClass where
  category : Str
  items : List Str
  deriving DecidableEq

structure RecommendationItem where
  index : Option ℚ
  text : Str
  impact : Option Str
  deriving DecidableEq

structure ChartDataPoint where
  name : Str
  value : ℚ
  label : Option Str
  deriving DecidableEq

structure TableData where
  headers : List Str
  rows : List (List Str)
  deriving DecidableEq

inductive SectionContent where
  | headline (s : Str)
  | kpis (l : List KPICard)
  | chart (l : List ChartDataPoint)
  | insights (l : List InsightItem)
  | menu (l : List MenuEngClass)
  | recommendations (l : List RecommendationItem)
  | table (t : TableData)
  | text (s : Str)
  deriving DecidableEq

structure ResponseSection where
  type : Str
  title : Option Str
  content : SectionContent
  order : Nat
  deriving DecidableEq

structure ParsedResponse where
  headline : Option Str := none
  kpiCards : Option (List KPICard) := none
  insights : Option (List InsightItem) := none
  menuEngineering : Option (List MenuEngClass) := none
  recommendations : Option (List RecommendationItem) := none
  chartData : Option (List ChartDataPoint) := none
  tableData : Option TableData := none
  sections : Option (List ResponseSection) := none
  rawText : Option Str := none
  deriving DecidableEq

/-- The argument of `parseResponse(content: string)` as it can actually arrive
at runtime (the test suite calls it with `undefined as any`). -/
inductive JsInput where
  | undef
  | nullv
  | str (s : Str)
  deriving DecidableEq

/-- A thrown JavaScript exception (the parser can only throw `TypeError`,
from property access on `undefined`). -/
inductive JsErr where
  | typeError
  deriving DecidableEq

/-! ## Regular-expression pattern constants

Each definition below is the `RE` form of the like-named entry of the
`PATTERNS` object (or of an inline regex literal) of `responseParser.ts`;
the textual regex appears in the doc string.  `catL`/`altL` chain
concatenation and alternation in source order. -/

def catL (l : List RE) : RE := l.foldr .cat .eps

def altL : List RE → RE
  | [] => .eps
  | [a] => a
  | a :: rest => .alt a (altL rest)

def wsCls : RE := .cls (isSpaceCh ·)

def dotCls : RE := .cls (isDotCh ·)

def digitCls : RE := .cls (isDigitCh ·)

def isBulletCh (c : Char) : Bool := c = '•' ∨ c = '-' ∨ c = '*'

def bulletCls : RE := .cls (isBulletCh ·)

def ciCh (c : Char) : RE := .cls (ciEq · c)

/-- The apostrophe character (U+0027). -/
def apoCh : Char := Char.ofNat 39

/-- Regex `[\d,]+(?:\.\d+)?`. -/
def numRE : RE :=
  catL [rePlus (.cls (fun c => isDigitCh c ∨ c = ',')),
        reOpt (catL [lit ['.'], rePlus digitCls])]

namespace PATTERNS

/-- Regex `^(?:#{1,3}\s*)?(?:\*\*)?HEADLINE:?\s*(.+?)(?:\*\*)?$` with flags `im`. -/
def headline : RE :=
  catL [.bol true,
        reOpt (catL [lit ['#'], reOpt (lit ['#']), reOpt (lit ['#']), .star wsCls]),
        reOpt (lit "**".toList),
        litCI "HEADLINE".toList,
        reOpt (lit [':']),
        .star wsCls,
        .grp 1 (rePlusL dotCls),
        reOpt (lit "**".toList),
        .eol true]

/-- Regex `^\*\*([^*\n]+)\*\*$` with flag `m`. -/
def boldHeadline : RE :=
  catL [.bol true, lit "**".toList,
        .grp 1 (rePlus (.cls (fun c => ¬ (c = '*' ∨ c = '\n')))),
        lit "**".toList, .eol true]

/-- Regex `(?:^|\n)\s*[-•*]?\s*(?:⭐|🐴|🧩|🐕)?\s*(STAR|PLOWHORSE|PUZZLE|DOG)(?:\s*\([^)]+\))?:\s*(.+?)(?=\n|$)` with flags `gi`. -/
def menuClass : RE :=
  catL [.alt (.bol false) (.cls (· = '\n')),
        .star wsCls,
        reOpt bulletCls,
        .star wsCls,
        reOpt (altL [.cls (· = '⭐'), .cls (· = '🐴'), .cls (· = '🧩'), .cls (· = '🐕')]),
        .star wsCls,
        .grp 1 (altL [litCI "STAR".toList, litCI "PLOWHORSE".toList,
                      litCI "PUZZLE".toList, litCI "DOG".toList]),
        reOpt (catL [.star wsCls, lit ['('], rePlus (.cls (· ≠ ')')), lit [')']]),
        lit [':'],
        .star wsCls,
        .grp 2 (rePlusL dotCls),
        .look (.alt (.cls (· = '\n')) (.eol false))]

/-- Regex `(?:Here's what I'd do|Recommendations?|Actions?|What I'd recommend|Next steps?):\s*\n?` with flag `i`. -/
def recommendationHeader : RE :=
  catL [altL [litCI ("Here".toList ++ [apoCh] ++ "s what I".toList ++ [apoCh] ++ "d do".toList),
              catL [litCI "Recommendation".toList, reOpt (ciCh 's')],
              catL [litCI "Action".toList, reOpt (ciCh 's')],
              litCI ("What I".toList ++ [apoCh] ++ "d recommend".toList),
              catL [litCI "Next step".toList, reOpt (ciCh 's')]],
        lit [':'], .star wsCls, reOpt (lit ['\n'])]

/-- Regex `^\s*(\d+)\.\s+(.+?)(?=\n\d+\.|\n\n|$)` with flags `gms` (the inline
numbered-item pattern of `extractRecommendations`; `s` makes `.` match
newlines, `m` makes `$` match before a newline). -/
def recItem : RE :=
  catL [.bol true, .star wsCls,
        .grp 1 (rePlus digitCls), lit ['.'], rePlus wsCls,
        .grp 2 (rePlusL (.cls (fun _ => true))),
        .look (altL [catL [lit ['\n'], rePlus digitCls, lit ['.']],
                     lit "\n\n".toList,
                     .eol true])]

/-- Inline regex `ALERTS[^:]*:\s*\n((?:[•\-\*].+\n?)+)` with flags `im`. -/
def alertsSection : RE :=
  catL [litCI "ALERTS".toList, .star (.cls (· ≠ ':')), lit [':'],
        .star wsCls, lit ['\n'],
        .grp 1 (rePlus (catL [bulletCls, rePlus dotCls, reOpt (lit ['\n'])]))]

/-- Inline regex `ALERTS[^:]*:\s*\n?` with flags `im`. -/
def alertsHeader : RE :=
  catL [litCI "ALERTS".toList, .star (.cls (· ≠ ':')), lit [':'],
        .star wsCls, reOpt (lit ['\n'])]

/-- Inline regex `(?:THE NUMBERS|KEY METRICS|METRICS)[^:]*:\s*\n?` with flags `im`. -/
def theNumbers : RE :=
  catL [altL [litCI "THE NUMBERS".toList, litCI "KEY METRICS".toList, litCI "METRICS".toList],
        .star (.cls (· ≠ ':')), lit [':'], .star wsCls, reOpt (lit ['\n'])]

/-- The regex `new RegExp('^[•\-\*]?\s*' + escapeRegex(line) + '\s*$', 'gm')`
built in `extractKPIs` for a matched line (`escapeRegex` makes `line` a
literal). -/
def kpiLineRemoval (l : Str) : RE :=
  catL [.bol true, reOpt bulletCls, .star wsCls, lit l, .star wsCls, .eol true]

/-- Inline regex `^[-•*]\s+(.+?)$` with flags `gm` (bullet insights). -/
def bulletPoint : RE :=
  catL [.bol true, bulletCls, rePlus wsCls, .grp 1 (rePlusL dotCls), .eol true]

/-- Regex `^\s*(\d+)\.\s*([^:\-–]+?)[\s:\-–]+([\d,]+(?:\.\d+)?)\s*(EGP|units?|%)?` with flags `gm`. -/
def rankedItem : RE :=
  catL [.bol true, .star wsCls,
        .grp 1 (rePlus digitCls), lit ['.'], .star wsCls,
        .grp 2 (rePlusL (.cls (fun c => ¬ (c = ':' ∨ c = '-' ∨ c = '–')))),
        rePlus (.cls (fun c => isSpaceCh c ∨ c = ':' ∨ c = '-' ∨ c = '–')),
        .grp 3 numRE,
        .star wsCls,
        reOpt (.grp 4 (altL [litCI "EGP".toList,
                             catL [litCI "unit".toList, reOpt (ciCh 's')],
                             lit ['%']]))]

/-- Regex `\|(.+)\|\n\|[-:| ]+\|\n((?:\|.+\|\n?)+)` with flag `g`. -/
def markdownTable : RE :=
  catL [lit ['|'], .grp 1 (rePlus dotCls), lit "|\n|".toList,
        rePlus (.cls (fun c => c = '-' ∨ c = ':' ∨ c = '|' ∨ c = ' ')),
        lit "|\n".toList,
        .grp 2 (rePlus (catL [lit ['|'], rePlus dotCls, reOpt (lit ['\n'])]))]

/-- Inline regex `(?:Projected|Expected|Estimated)?\s*(?:impact|uplift|revenue)?\s*:?\s*([+-]?\s*(?:EGP\s*)?\d+[^.]*)` with flag `i`. -/
def impact : RE :=
  catL [reOpt (altL [litCI "Projected".toList, litCI "Expected".toList, litCI "Estimated".toList]),
        .star wsCls,
        reOpt (altL [litCI "impact".toList, litCI "uplift".toList, litCI "revenue".toList]),
        .star wsCls, reOpt (lit [':']), .star wsCls,
        .grp 1 (catL [reOpt (.cls (fun c => c = '+' ∨ c = '-')),
                      .star wsCls,
                      reOpt (catL [litCI "EGP".toList, .star wsCls]),
                      rePlus digitCls,
                      .star (.cls (· ≠ '.'))])]

/-- Inline regex `^[A-Z][A-Z\s]+:\s*$` with flags `gm` (empty section-header
cleanup in `parseResponse`). -/
def emptySectionHeader : RE :=
  catL [.bol true, .cls (isAsciiUpper ·),
        rePlus (.cls (fun c => isAsciiUpper c ∨ isSpaceCh c)),
        lit [':'], .star wsCls, .eol true]

end PATTERNS

example :
    (reSearch PATTERNS.headline "## Headline: Sales up\nrest".toList).map
      (fun m => capStr "## Headline: Sales up\nrest".toList m.2.2 1) =
      some (some "Sales up".toList) := by decide
example :
    (reSearch PATTERNS.recommendationHeader "ok\nNext steps:\n1. do".toList).isSome = true := by
  decide

/-! ## Deterministic scanners for the anchored single-line patterns

The per-line regexes of `extractKPIs`, `extractAlerts` and the primary tier
of `extractChartData` are anchored at the line start and, because their
character classes are disjoint at every quantifier boundary, they match
deterministically except for a handful of optional groups whose taken/not
taken alternatives are tried here in the same greedy order as in the
regexes.  Each scanner consumes from the front of a string and returns the
remaining suffix. -/

def dropWS (s : Str) : Str := s.dropWhile (isSpaceCh ·)

/-- Consume `pat` case-insensitively (ASCII) from the front of `s`. -/
def ciPrefixR : Str → Str → Option Str
  | [], s => some s
  | _ :: _, [] => none
  | p :: pt, c :: ct => if ciEq c p then ciPrefixR pt ct else none

/-- Regex `\s+`: at least one whitespace character. -/
def ws1 (s : Str) : Option Str :=
  match s with
  | c :: t => if isSpaceCh c then some (t.dropWhile (isSpaceCh ·)) else none
  | [] => none

/-- Regex `[\d,]+(?:\.\d+)?`: the captured text and the rest. -/
def scanNum (s : Str) : Option (Str × Str) :=
  let ip := s.takeWhile (fun c => isDigitCh c ∨ c = ',')
  if ip = [] then none
  else
    let s1 := s.drop ip.length
    match s1 with
    | '.' :: t =>
      let fp := t.takeWhile (isDigitCh ·)
      if fp = [] then some (ip, s1) else some (ip ++ '.' :: fp, t.drop fp.length)
    | _ => some (ip, s1)

/-- Regex `\d+`. -/
def scanDigits (s : Str) : Option (Str × Str) :=
  let ip := s.takeWhile (isDigitCh ·)
  if ip = [] then none else some (ip, s.drop ip.length)

/-- Regex `[\d.]+`. -/
def scanDigitsDots (s : Str) : Option (Str × Str) :=
  let ip := s.takeWhile (fun c => isDigitCh c ∨ c = '.')
  if ip = [] then none else some (ip, s.drop ip.length)

/-- Greedy optional group: try `body` followed by `cont`, fall back to `cont`
alone (regex `(?:body)?cont`). -/
def tryOpt (body : Str → Option Str) (cont : Str → Option Str) (s : Str) : Option Str :=
  match body s with
  | some s1 =>
    match cont s1 with
    | some r => some r
    | none => cont s
  | none => cont s

/-- Pattern 1 of `extractKPIs`:
`^([\d,]+(?:\.\d+)?)\s*EGP\s+(?:GMV|total\s+sales|revenue)\s+from\s+(\d+)\s+(?:successful\s+)?orders` with flag `i`.
Captures: the amount text and the order-count text. -/
def p1Match (s : Str) : Option (Str × Str) := do
  let (n1, r1) ← scanNum s
  let r2 ← ciPrefixR "EGP".toList (dropWS r1)
  let r3 ← ws1 r2
  let r4 ← match ciPrefixR "GMV".toList r3 with
    | some r => some r
    | none =>
      match (do
        let ra ← ciPrefixR "total".toList r3
        let rb ← ws1 ra
        ciPrefixR "sales".toList rb) with
      | some r => some r
      | none => ciPrefixR "revenue".toList r3
  let r5 ← ws1 r4
  let r6 ← ciPrefixR "from".toList r5
  let r7 ← ws1 r6
  let (n2, r8) ← scanDigits r7
  let r9 ← ws1 r8
  let _ ← tryOpt
    (fun r => do
      let ra ← ciPrefixR "successful".toList r
      ws1 ra)
    (ciPrefixR "orders".toList) r9
  return (n1, n2)

/-- Pattern 2 of `extractKPIs`: `^([\d,]+(?:\.\d+)?)\s*EGP\s+AOV\b` with flag `i`. -/
def p2Match (s : Str) : Option Str := do
  let (n1, r1) ← scanNum s
  let r2 ← ciPrefixR "EGP".toList (dropWS r1)
  let r3 ← ws1 r2
  let r4 ← ciPrefixR "AOV".toList r3
  match r4 with
  | [] => return n1
  | c :: _ => if isWordCh c then none else return n1

/-- Pattern 3 of `extractKPIs`:
`^([\d.]+)%\s+(?:payment\s+)?approval\s*(?:rate)?` or `^Approval\s*(?:rate)?:\s*([\d.]+)%`, flag `i`. -/
def p3Match (s : Str) : Option Str :=
  match (do
    let (n1, r1) ← scanDigitsDots s
    let r2 ← match r1 with | '%' :: t => some t | _ => none
    let r3 ← ws1 r2
    let _ ← tryOpt
      (fun r => do
        let ra ← ciPrefixR "payment".toList r
        ws1 ra)
      (ciPrefixR "approval".toList) r3
    return n1) with
  | some n => some n
  | none => do
    let r1 ← ciPrefixR "Approval".toList s
    let r2 := dropWS r1
    let r3 ← tryOpt
      (fun r => ciPrefixR "rate".toList r)
      (fun r => match r with | ':' :: t => some t | _ => none) r2
    let (n1, r4) ← scanDigitsDots (dropWS r3)
    match r4 with
    | '%' :: _ => return n1
    | _ => none

/-- Pattern 4 of `extractKPIs`:
`^([\d,]+(?:\.\d+)?)\s*EGP\s+(?:in\s+)?tips` or `^Tips?:\s*([\d,]+(?:\.\d+)?)\s*EGP`, flag `i`. -/
def p4Match (s : Str) : Option Str :=
  match (do
    let (n1, r1) ← scanNum s
    let r2 ← ciPrefixR "EGP".toList (dropWS r1)
    let r3 ← ws1 r2
    let _ ← tryOpt
      (fun r => do
        let ra ← ciPrefixR "in".toList r
        ws1 ra)
      (ciPrefixR "tips".toList) r3
    return n1) with
  | some n => some n
  | none => do
    let r1 ← ciPrefixR "Tip".toList s
    let r2 ← tryOpt
      (fun r => match r with | c :: t => if ciEq c 's' then some t else none | [] => none)
      (fun r => match r with | ':' :: t => some t | _ => none) r1
    let (n1, r3) ← scanNum (dropWS r2)
    let r4 ← ciPrefixR "EGP".toList (dropWS r3)
    let _ := r4
    return n1

/-- Pattern 5 of `extractKPIs` (recognised but deliberately not emitted):
`^([\d.]+)%\s+(?:of\s+)?(?:orders?\s+had\s+)?split\s*(?:payments?|rate)?` or
`^Split\s*(?:rate)?:\s*([\d.]+)%`, flag `i`. -/
def p5Match (s : Str) : Option Str :=
  match (do
    let (n1, r1) ← scanDigitsDots s
    let r2 ← match r1 with | '%' :: t => some t | _ => none
    let r3 ← ws1 r2
    let _ ← tryOpt
      (fun r => do
        let ra ← ciPrefixR "of".toList r
        ws1 ra)
      (tryOpt
        (fun r => do
          let ra ← ciPrefixR "order".toList r
          let rb := match ra with
            | c :: t => if ciEq c 's' then t else ra
            | [] => ra
          let rc ← ws1 rb
          let rd ← ciPrefixR "had".toList rc
          ws1 rd)
        (ciPrefixR "split".toList)) r3
    return n1) with
  | some n => some n
  | none => do
    let r1 ← ciPrefixR "Split".toList s
    let r2 := dropWS r1
    let r3 ← tryOpt
      (fun r => ciPrefixR "rate".toList r)
      (fun r => match r with | ':' :: t => some t | _ => none) r2
    let (n1, r4) ← scanDigitsDots (dropWS r3)
    match r4 with
    | '%' :: _ => return n1
    | _ => none

/-- The `(?:\.\d+)?` part of a numeric capture: the (possibly empty)
fraction text and the rest. -/
def scanFrac (s2 : Str) : Str × Str :=
  match s2 with
  | '.' :: t =>
    let fs := t.takeWhile (isDigitCh ·)
    if fs = [] then ([], s2) else ('.' :: fs, t.drop fs.length)
  | _ => ([], s2)

/-- The `%?` part: the (possibly empty) percent sign and the rest. -/
def scanPct (s3 : Str) : Str × Str :=
  match s3 with
  | '%' :: t => (['%'], t)
  | _ => ([], s3)

/-- The `\d+(?:\.\d+)?%?` part of capture 5 of pattern 6. -/
def scanTrendNum (s1 : Str) : Option (Str × Str) :=
  let ds := s1.takeWhile (isDigitCh ·)
  if ds = [] then none
  else
    let fr := scanFrac (s1.drop ds.length)
    let pc := scanPct fr.2
    some (ds ++ fr.1 ++ pc.1, pc.2)

/-- Capture 5 of pattern 6, regex `([+-]?\d+(?:\.\d+)?%?)?`: the captured
text (sign ++ digits ++ fraction ++ percent) and the rest; `none` when the
optional group does not participate (no digits after the optional sign). -/
def scanTrendVal (s : Str) : Option (Str × Str) :=
  match s with
  | c :: t =>
    if c = '+' ∨ c = '-' then (scanTrendNum t).map (fun pr => (c :: pr.1, pr.2))
    else scanTrendNum (c :: t)
  | [] => none

/-- Capture 3 of pattern 6, regex `(EGP|%|units?)?`: captured text and rest. -/
def scanUnit (s : Str) : Option Str × Str :=
  match ciPrefixR "EGP".toList s with
  | some r => (some (s.take (s.length - r.length)), r)
  | none =>
    match s with
    | '%' :: t => (some ['%'], t)
    | _ =>
      match ciPrefixR "unit".toList s with
      | some r =>
        match r with
        | c :: t =>
          if ciEq c 's' then (some (s.take (s.length - t.length)), t)
          else (some (s.take (s.length - r.length)), r)
        | [] => (some (s.take (s.length - r.length)), r)
      | none => (none, s)

/-- The `([↑↓])?` group: the arrow character if present, and the rest. -/
def scanArrow (s : Str) : Option Char × Str :=
  match s with
  | c :: t => if c = '↑' ∨ c = '↓' then (some c, t) else (none, c :: t)
  | [] => (none, [])

/-- Everything of pattern 6 after the label: `:\s*([\d,]+(?:\.\d+)?)\s*(EGP|%|units?)?\s*([↑↓])?\s*([+-]?\d+(?:\.\d+)?%?)?`. -/
def p6AfterLabel (r : Str) : Option (Str × Option Str × Option Char × Option Str) :=
  match r with
  | c :: r1 =>
    if c ≠ ':' then none
    else
      match scanNum (dropWS r1) with
      | none => none
      | some (n, r3) =>
        let ur := scanUnit (dropWS r3)
        let dr := scanArrow (dropWS ur.2)
        some (n, ur.1, dr.1, (scanTrendVal (dropWS dr.2)).map (·.1))
  | [] => none

/-- Label candidates of pattern 6 (`GMV|Revenue|Orders?|AOV|Units?|Customers?|Total\s*Sales?|Tips?`),
in source order, greediest variant first: the possible rests after the label. -/
def p6LabelCands (s : Str) : List Str :=
  let withOptS : Option Str → List Str := fun r? =>
    match r? with
    | none => []
    | some r =>
      match r with
      | c :: t => if ciEq c 's' then [t, r] else [r]
      | [] => [r]
  let totalSales : List Str :=
    match ciPrefixR "Total".toList s with
    | none => []
    | some r =>
      withOptS (ciPrefixR "Sale".toList (dropWS r))
  (ciPrefixR "GMV".toList s).toList ++
  (ciPrefixR "Revenue".toList s).toList ++
  withOptS (ciPrefixR "Order".toList s) ++
  (ciPrefixR "AOV".toList s).toList ++
  withOptS (ciPrefixR "Unit".toList s) ++
  withOptS (ciPrefixR "Customer".toList s) ++
  totalSales ++
  withOptS (ciPrefixR "Tip".toList s)

/-- Pattern 6 of `extractKPIs`:
`^[•\-\*]\s*(GMV|Revenue|Orders?|AOV|Units?|Customers?|Total\s*Sales?|Tips?):\s*([\d,]+(?:\.\d+)?)\s*(EGP|%|units?)?\s*([↑↓])?\s*([+-]?\d+(?:\.\d+)?%?)?`
with flag `i`.  Returns (label, amount, unit?, arrow?, trend?). -/
def p6Match (s : Str) : Option (Str × Str × Option Str × Option Char × Option Str) :=
  match s with
  | c :: t =>
    if isBulletCh c then
      let r := dropWS t
      (p6LabelCands r).findSome? (fun rest =>
        (p6AfterLabel rest).map (fun out =>
          (r.take (r.length - rest.length), out)))
    else none
  | [] => none

example :
    p1Match "28,382.95 EGP GMV from 17 successful orders".toList =
      some ("28,382.95".toList, "17".toList) := by decide
example : p2Match "1,669.59 EGP AOV ⚠️".toList = some "1,669.59".toList := by decide
example : p3Match "94.1% payment approval rate".toList = some "94.1".toList := by decide
example : p4Match "2,076 EGP in tips".toList = some "2,076".toList := by decide
example : p5Match "Split rate: 5.9%".toList = some "5.9".toList := by decide
example :
    p6Match "• GMV: 32,195 EGP ↑ +0.5%".toList =
      some ("GMV".toList, "32,195".toList, some "EGP".toList, some '↑', some "+0.5%".toList) := by
  decide
example :
    p6Match "• Orders: 17 ↓ -29.2%".toList =
      some ("Orders".toList, "17".toList, none, some '↓', some "-29.2%".toList) := by decide
example : p6Match "• Orderss: 1".toList = none := by decide
example :
    p6Match "• Total  Sales: 5,000".toList =
      some ("Total  Sales".toList, "5,000".toList, none, none, none) := by decide

/-! ## Chart-data extraction (`extractChartData`, primary tier and fallbacks) -/

/-- The optional icon `(?:🔥|⭐|🧩|🐕|📊|⚠️)?` of the tier-1 name pattern
(the warning sign is the two-code-point emoji presentation sequence). -/
def iconScanT1 (s : Str) : Option Str :=
  match s with
  | c :: t =>
    if c = '🔥' ∨ c = '⭐' ∨ c = '🧩' ∨ c = '🐕' ∨ c = '📊' then some t
    else if c = '⚠' then
      match t with
      | c2 :: t2 => if c2 = '️' then some t2 else none
      | [] => none
    else none
  | [] => none

/-- Lazy `([^:\n]+?):` — the (nonempty) text up to the first colon, which
must exist. -/
def chartNameTryFrom (r : Str) : Option Str :=
  let pre := r.takeWhile (fun c => ¬ (c = ':' ∨ c = '\n'))
  if pre = [] then none
  else if r.get? pre.length = some ':' then some pre else none

/-- Tier-1 name pattern `^[-•*]\s*(?:🔥|⭐|🧩|🐕|📊|⚠️)?\s*([^:\n]+?):`
(capture 1; the taken-icon branch is tried first, as the greedy `?` does). -/
def chartNameMatch (s : Str) : Option Str :=
  match s with
  | c :: t =>
    if isBulletCh c then
      let r := dropWS t
      match iconScanT1 r with
      | some r2 =>
        match chartNameTryFrom (dropWS r2) with
        | some n => some n
        | none => chartNameTryFrom r
      | none => chartNameTryFrom r
    else none
  | [] => none

/-- All matches of `([\d,]+(?:\.\d+)?)\s*EGP` (flags `gi`) in a line:
the capture-1 texts. -/
def egpScanAux : Nat → Str → List Str
  | 0, _ => []
  | f+1, s =>
    match s with
    | [] => []
    | _ :: t =>
      match scanNum s with
      | some (n, r) =>
        match ciPrefixR "EGP".toList (dropWS r) with
        | some r3 => n :: egpScanAux f r3
        | none => egpScanAux f t
      | none => egpScanAux f t

def egpScan (s : Str) : List Str := egpScanAux (s.length + 1) s

/-- `/^(...)/i.test(name)`: does any of the given prefixes start `name`
(case-insensitively)? -/
def startsWithAnyCI (pres : List Str) (s : Str) : Bool :=
  pres.any (fun p => (ciPrefixR p s).isSome)

/-- Alternatives of the tier-1 metric-word guard
`/^(GMV|Revenue|Orders?|AOV|Approval|Split|Total|Key|The|This|Tips?|Impact|Payment|Sales)/i`
(an optional trailing `s?` is irrelevant to a prefix test). -/
def tier1Block : List Str :=
  ["GMV".toList, "Revenue".toList, "Order".toList, "AOV".toList, "Approval".toList,
   "Split".toList, "Total".toList, "Key".toList, "The".toList, "This".toList,
   "Tip".toList, "Impact".toList, "Payment".toList, "Sales".toList]

/-- Alternatives of the tier-2 guard
`/^(GMV|Revenue|Orders?|AOV|Approval|Split|Total|Key|The|Tips?|Impact|Payment|Sales)/i`. -/
def tier2Block : List Str :=
  ["GMV".toList, "Revenue".toList, "Order".toList, "AOV".toList, "Approval".toList,
   "Split".toList, "Total".toList, "Key".toList, "The".toList,
   "Tip".toList, "Impact".toList, "Payment".toList, "Sales".toList]

/-- Alternatives of the tier-4 guard
`/^(total|revenue|gmv|orders?|aov|sales|headline|items?|beef|units?)/i`. -/
def tier4Block : List Str :=
  ["total".toList, "revenue".toList, "gmv".toList, "order".toList, "aov".toList,
   "sales".toList, "headline".toList, "item".toList, "beef".toList, "unit".toList]

/-- First pass over the EGP amounts of a line:
`if (val > maxValue && val >= 100) maxValue = val` starting from `0`
(`none` is NaN, which fails every comparison). -/
def egpMaxPass1 (vs : List (Option ℚ)) : ℚ :=
  vs.foldl (fun acc v? =>
    match v? with
    | some v => if acc < v ∧ 100 ≤ v then v else acc
    | none => acc) 0

/-- Second pass, only reached when the first produced `0`:
`if (val > maxValue) maxValue = val`. -/
def egpMaxPass2 (vs : List (Option ℚ)) : ℚ :=
  vs.foldl (fun acc v? =>
    match v? with
    | some v => if acc < v then v else acc
    | none => acc) 0

/-- The chart value chosen from a line's EGP amounts. -/
def egpPickValue (vs : List (Option ℚ)) : ℚ :=
  let m1 := egpMaxPass1 vs
  if m1 = 0 then egpMaxPass2 vs else m1

/-- `name.length > 20 ? name.substring(0, 17) + "..." : name`
(UTF-16 units). -/
def truncName (n : Str) : Str :=
  if 20 < u16Len n then take16 17 n ++ "...".toList else n

/-- `parseFloat(text.replace(/,/g, ""))`. -/
def parseAmount (s : Str) : Option ℚ := parseFloatQ (s.filter (· ≠ ','))

/-- State of `extractChartData`: the collected points and the `seenNames`
set (in insertion order; only membership is consulted). -/
structure CSt where
  points : List ChartDataPoint
  seen : List Str
  deriving DecidableEq

/-- One line of the tier-1 (primary) loop of `extractChartData`. -/
def chartTier1 (st : CSt) (line : Str) : CSt :=
  let tl := jsTrim line
  match tl with
  | c :: _ =>
    if isBulletCh c then
      match chartNameMatch tl with
      | some rawName =>
        let name := jsTrim rawName
        if startsWithAnyCI tier1Block name then st
        else if lowerStr name ∈ st.seen then st
        else if u16Len name < 2 ∨ 50 < u16Len name then st
        else
          let egps := egpScan tl
          if egps = [] then st
          else
            let v := egpPickValue (egps.map parseAmount)
            if v = 0 then st
            else
              { points := st.points ++ [⟨truncName name, v, some "EGP".toList⟩],
                seen := st.seen ++ [lowerStr name] }
      | none => st
    else st
  | [] => st

/-- One match of the tier-2 fallback `([A-Za-z][A-Za-z &']+?):\s*([\d,]+(?:\.\d+)?)\s*EGP` (flags `gi`). -/
def nameClCh (c : Char) : Bool := isAsciiAlpha c ∨ c = ' ' ∨ c = '&' ∨ c = apoCh

def t2Try (s : Str) : Option (Str × Str × Str) :=
  match s with
  | c :: t =>
    if isAsciiAlpha c then
      let run := t.takeWhile (nameClCh ·)
      let name := c :: run
      if run = [] then none
      else
        match t.drop run.length with
        | ':' :: r1 => do
          let (v, r2) ← scanNum (dropWS r1)
          let r3 ← ciPrefixR "EGP".toList (dropWS r2)
          return (name, v, r3)
        | _ => none
    else none
  | [] => none

def t2ScanAux : Nat → Str → List (Str × Str)
  | 0, _ => []
  | f+1, s =>
    match s with
    | [] => []
    | _ :: t =>
      match t2Try s with
      | some (n, v, rest) => (n, v) :: t2ScanAux f rest
      | none => t2ScanAux f t

def t2Scan (s : Str) : List (Str × Str) := t2ScanAux (s.length + 1) s

def chartTier2 (st : CSt) (m : Str × Str) : CSt :=
  let name := jsTrim m.1
  let value := parseAmount m.2
  if startsWithAnyCI tier2Block name then st
  else if lowerStr name ∈ st.seen then st
  else if value = none ∨ value = some 0 then st
  else if u16Len name < 2 ∨ 40 < u16Len name then st
  else
    { points := st.points ++ [⟨truncName name, value.getD 0, some "EGP".toList⟩],
      seen := st.seen ++ [lowerStr name] }

/-- One match of the tier-3 fallback (`PATTERNS.rankedItem`). -/
def chartTier3 (text : Str) (st : CSt) (m : Nat × Nat × Caps) : CSt :=
  let name := jsTrim ((capStr text m.2.2 2).getD [])
  let value := parseAmount ((capStr text m.2.2 3).getD [])
  let unit := (capStr text m.2.2 4).getD []
  if lowerStr name ∈ st.seen then st
  else if value = none ∨ value = some 0 then st
  else
    { points := st.points ++ [⟨truncName name, value.getD 0, some unit⟩],
      seen := st.seen ++ [lowerStr name] }

/-- One match of the tier-4 fallback
`\*?\*?([A-Za-z][A-Za-z &']+?)(?:\*\*)?\s*[:=]\s*([\d,]+(?:\.\d+)?)\s*(?:EGP|GMV)` (flags `gi`). -/
def t4Try (s : Str) : Option (Str × Str × Str) :=
  let s1 := match s with
    | '*' :: t =>
      match t with
      | '*' :: t2 => t2
      | _ => t
    | _ => s
  match s1 with
  | c :: t =>
    if isAsciiAlpha c then
      let run := t.takeWhile (nameClCh ·)
      let name := c :: run
      if run = [] then none
      else
        let r0 := t.drop run.length
        let r1 := match r0 with
          | '*' :: '*' :: t2 => t2
          | _ => r0
        match dropWS r1 with
        | d :: r2 =>
          if d = ':' ∨ d = '=' then do
            let (v, r3) ← scanNum (dropWS r2)
            let r4 := dropWS r3
            match ciPrefixR "EGP".toList r4 with
            | some r5 => return (name, v, r5)
            | none => do
              let r5 ← ciPrefixR "GMV".toList r4
              return (name, v, r5)
          else none
        | [] => none
    else none
  | [] => none

def t4ScanAux : Nat → Str → List (Str × Str)
  | 0, _ => []
  | f+1, s =>
    match s with
    | [] => []
    | _ :: t =>
      match t4Try s with
      | some (n, v, rest) => (n, v) :: t4ScanAux f rest
      | none => t4ScanAux f t

def t4Scan (s : Str) : List (Str × Str) := t4ScanAux (s.length + 1) s

/-- `.replace(/^\*+/, '')` / `.replace(/\*+$/, '')` applied to the tier-4
name. -/
def stripStars (s : Str) : Str :=
  ((s.dropWhile (· = '*')).reverse.dropWhile (· = '*')).reverse

def chartTier4 (st : CSt) (m : Str × Str) : CSt :=
  let name := stripStars (jsTrim m.1)
  let value := parseAmount m.2
  if startsWithAnyCI tier4Block name then st
  else if lowerStr name ∈ st.seen then st
  else if value = none ∨ value = some 0 then st
  else if u16Len name < 3 ∨ 40 < u16Len name then st
  else
    { points := st.points ++ [⟨truncName name, value.getD 0, some "EGP".toList⟩],
      seen := st.seen ++ [lowerStr name] }

/-- All four tiers of `extractChartData`; a fallback tier only runs while
fewer than 3 points have been collected. -/
def chartCollect (text : Str) : CSt :=
  let st1 := (splitNl text).foldl chartTier1 ⟨[], []⟩
  let st2 := if st1.points.length < 3 then (t2Scan text).foldl chartTier2 st1 else st1
  let st3 :=
    if st2.points.length < 3 then
      (reMatchAll PATTERNS.rankedItem text).foldl (chartTier3 text) st2
    else st2
  if st3.points.length < 3 then (t4Scan text).foldl chartTier4 st3 else st3

/-- `extractChartData`: the chart is only returned when at least
`minItemsForChart = 3` points were found, capped by `.slice(0, 8)`; the
remaining text is returned unchanged. -/
def extractChartData (text : Str) : List ChartDataPoint × Str :=
  let pts := (chartCollect text).points
  (if 3 ≤ pts.length then pts.take 8 else [], text)

example :
    egpScan "• 🔥 Steak & Fries: 4 units = 22% of beef units • 2,600 EGP GMV".toList =
      ["2,600".toList] := by decide
example :
    chartNameMatch "• 🔥 Steak & Fries: 4 units → 2,600 EGP GMV (22%)".toList =
      some "Steak & Fries".toList := by decide
example :
    (extractChartData "• Cappuccino: 1,600 EGP\n• Flat White: 425 EGP\n• Toffee Nut Latte: 520 EGP".toList).1.map
      (fun p => (p.name, p.value)) =
      [("Cappuccino".toList, (1600 : ℚ)), ("Flat White".toList, (425 : ℚ)),
       ("Toffee Nut Latte".toList, (520 : ℚ))] := by decide

/-! ## Stage functions -/

/-- `.replace(/^\*\*\s*/, '')` (anchored, so it fires only when the string
starts with `**`, removing it and the following whitespace). -/
def stripLeadBold (s : Str) : Str :=
  if "**".toList.isPrefixOf s then (s.drop 2).dropWhile (isSpaceCh ·) else s

/-- `.replace(/\s*\*\*$/, '')`: when the string ends with `**`, the leftmost
match removes that `**` and the whitespace run just before it. -/
def stripTrailBold (s : Str) : Str :=
  if "**".toList.isPrefixOf s.reverse then
    ((s.reverse.drop 2).dropWhile (isSpaceCh ·)).reverse
  else s

/-- `extractHeadline`: explicit `HEADLINE:` pattern first, then a bold line
at the very start of the text; the matched text (as a plain string) is
removed from the remaining pool. -/
def extractHeadline (text : Str) : Option Str × Str :=
  match reSearch PATTERNS.headline text with
  | some (i, j, caps) =>
    let h := stripTrailBold (stripLeadBold (jsTrim ((capStr text caps 1).getD [])))
    (some h, jsTrim (replaceFirst text (subStr text i j) []))
  | none =>
    match reSearch PATTERNS.boldHeadline text with
    | some (i, j, caps) =>
      if i = 0 then
        (some (jsTrim ((capStr text caps 1).getD [])), jsTrim (replaceFirst text (subStr text i j) []))
      else (none, text)
    | none => (none, text)

/-- The synonym table of `normalizeKPILabel`. -/
def kpiLabelMap : List (Str × Str) :=
  [("revenue", "Revenue"), ("gmv", "Revenue"), ("total sales", "Revenue"),
   ("orders", "Orders"), ("order", "Orders"),
   ("aov", "Avg Order"), ("avg order", "Avg Order"), ("average order value", "Avg Order"),
   ("units", "Units Sold"), ("unit", "Units Sold"),
   ("customers", "Customers"), ("customer", "Customers"),
   ("share", "Share"),
   ("approval", "Approval Rate"), ("approval rate", "Approval Rate"),
   ("discount", "Discount"),
   ("split rate", "Split Rate"), ("split", "Split Rate"),
   ("total", "Total"), ("sales", "Revenue"),
   ("avg", "Average"), ("average", "Average"),
   ("tips", "Tips"), ("tip", "Tips")].map (fun p => (p.1.toList, p.2.toList))

/-- `normalizeKPILabel(label)`: look the lower-cased trimmed label up in the
synonym table, fall back to the label itself. -/
def normalizeKPILabel (label : Str) : Str :=
  let cleanLabel := jsTrim (lowerStr label)
  match kpiLabelMap.find? (fun p => p.1 = cleanLabel) with
  | some p => p.2
  | none => label

/-- `normalizeUnit(unit)`. -/
def normalizeUnit (unit : Str) : Str :=
  let u := lowerStr unit
  if u = "egp".toList ∨ u = [] then "EGP".toList
  else if u = ['%'] ∨ u = "percent".toList then ['%']
  else if (findSub u "unit".toList).isSome then "units".toList
  else unit

/-- State of the `extractKPIs` loop: collected cards, `seenLabels`, and
`matchedLines` (both sets in insertion order). -/
structure KSt where
  kpis : List KPICard
  seen : List Str
  matched : List Str
  deriving DecidableEq

/-- The `addKPI` closure of `extractKPIs`: drop the card if its normalized
label (lower-cased) was already seen, otherwise record it together with the
line it came from. -/
def addKPI (st : KSt) (label : Str) (value : JVal) (unit : Str)
    (matchedText : Option Str) (trend : Option KTrend) : KSt :=
  let nl := normalizeKPILabel label
  if lowerStr nl ∈ st.seen then st
  else
    { kpis := st.kpis ++ [⟨nl, value, some (normalizeUnit unit), trend⟩],
      seen := st.seen ++ [lowerStr nl],
      matched :=
        match matchedText with
        | some m => if jsTrim m ∈ st.matched then st.matched else st.matched ++ [jsTrim m]
        | none => st.matched }

def toJVal : Option ℚ → JVal
  | some q => .num q
  | none => .nan

/-- `trendVal.replace("%", "").replace("+", "").replace("-", "")`. -/
def stripTrendTxt (tv : Str) : Str :=
  replaceFirst (replaceFirst (replaceFirst tv ['%'] []) ['+'] []) ['-'] []

/-- `Math.abs`; kernel-reducible form of the absolute value. -/
def jsAbs (q : ℚ) : ℚ := if q < 0 then Rat.neg q else q

/-- One line of the `extractKPIs` loop: patterns 1–6 tried in order, first
match wins (pattern 5, split rate, deliberately adds nothing). -/
def kpiLineStep (st : KSt) (line : Str) : KSt :=
  let tl := jsTrim line
  if tl = [] then st
  else
    match p1Match tl with
    | some (a, n) =>
      let st1 := addKPI st "Revenue".toList (toJVal (parseAmount a)) "EGP".toList (some tl) none
      addKPI st1 "Orders".toList (toJVal (parseIntQ n)) [] (some tl) none
    | none =>
    match p2Match tl with
    | some a => addKPI st "Avg Order".toList (toJVal (parseAmount a)) "EGP".toList (some tl) none
    | none =>
    match p3Match tl with
    | some a => addKPI st "Approval Rate".toList (toJVal (parseFloatQ a)) ['%'] (some tl) none
    | none =>
    match p4Match tl with
    | some a => addKPI st "Tips".toList (toJVal (parseAmount a)) "EGP".toList (some tl) none
    | none =>
    match p5Match tl with
    | some _ => st
    | none =>
    match p6Match tl with
    | some (lab, raw, unit?, dir?, tv?) =>
      let rawValue := raw.filter (· ≠ ',')
      let value := parseFloatQ rawValue
      let trend : Option KTrend :=
        match dir?, tv? with
        | some d, some tv =>
          some ⟨(if d = '↑' then "up" else "down").toList,
                (parseFloatQ (stripTrendTxt tv)).map jsAbs,
                some "vs last period".toList⟩
        | _, _ => none
      addKPI st (jsTrim lab)
        (match value with | some q => .num q | none => .str rawValue)
        (unit?.getD []) (some tl) trend
    | none => st

/-- `^\n{3,}` collapse: `.replace(/\n{3,}/g, "\n\n")` keeps only the first
two newlines of every longer run. -/
def collapseNl (s : Str) : Str :=
  (List.range s.length).filterMap (fun ix =>
    if 2 ≤ ix ∧ s.get? ix = some '\n' ∧ s.get? (ix-1) = some '\n' ∧ s.get? (ix-2) = some '\n'
    then none else s.get? ix)

/-- Removal of one matched KPI line from the remaining text: the global
anchored regex built with `escapeRegex`, then a plain-string replace. -/
def kpiRemoveLine (txt : Str) (m : Str) : Str :=
  replaceFirst (reStripAll (PATTERNS.kpiLineRemoval m) txt) m []

/-- `extractKPIs`. -/
def extractKPIs (text : Str) : List KPICard × Str :=
  let st := (splitNl text).foldl kpiLineStep ⟨[], [], []⟩
  let r1 := st.matched.foldl kpiRemoveLine text
  let r2 := reStripFirst PATTERNS.theNumbers r1
  (st.kpis, jsTrim (collapseNl r2))

/-- ASCII upper-casing (`String.prototype.toUpperCase` on the matched
category word, which is ASCII). -/
def upperChar (c : Char) : Char :=
  if 'a' ≤ c ∧ c ≤ 'z' then Char.ofNat (c.toNat - 32) else c

def upperStr (s : Str) : Str := s.map upperChar

/-- Split of a menu line's item list on `/,|\sand\s/`. -/
def menuSepAt (s : Str) (i : Nat) : Option Nat :=
  if s.get? i = some ',' then some 1
  else
    match s.get? i, s.get? (i+1), s.get? (i+2), s.get? (i+3), s.get? (i+4) with
    | some c0, some 'a', some 'n', some 'd', some c4 =>
      if isSpaceCh c0 ∧ isSpaceCh c4 then some 5 else none
    | _, _, _, _, _ => none

def menuFindSep (s : Str) : Option (Nat × Nat) :=
  ((List.range s.length).find? (fun i => (menuSepAt s i).isSome)).bind
    (fun i => (menuSepAt s i).map ((i, ·)))

def splitItemsAux : Nat → Str → List Str
  | 0, s => [s]
  | f+1, s =>
    match menuFindSep s with
    | none => [s]
    | some (i, l) => s.take i :: splitItemsAux f (s.drop (i + l))

def splitItems (s : Str) : List Str := splitItemsAux (s.length + 1) s

/-- Append the items to the first entry of the given category
(`existing.items.push(...items)`). -/
def menuUpdateFirst : List MenuEngClass → Str → List Str → List MenuEngClass
  | [], _, _ => []
  | m :: rest, cat, items =>
    if m.category = cat then { m with items := m.items ++ items } :: rest
    else m :: menuUpdateFirst rest cat items

/-- One match of `PATTERNS.menuClass` in `extractMenuEngineering`. -/
def menuStep (text : Str) (acc : List MenuEngClass × Str) (m : Nat × Nat × Caps) :
    List MenuEngClass × Str :=
  let cat := upperStr ((capStr text m.2.2 1).getD [])
  let itemsStr := jsTrim ((capStr text m.2.2 2).getD [])
  let items := ((splitItems itemsStr).map jsTrim).filter (· ≠ [])
  let menu1 :=
    if acc.1.any (fun e => e.category = cat) then menuUpdateFirst acc.1 cat items
    else acc.1 ++ [⟨cat, items⟩]
  (menu1, replaceFirst acc.2 (subStr text m.1 m.2.1) [])

/-- `extractMenuEngineering`. -/
def extractMenuEngineering (text : Str) : List MenuEngClass × Str :=
  let (menuEng, remaining) := (reMatchAll PATTERNS.menuClass text).foldl (menuStep text) ([], text)
  (menuEng, jsTrim remaining)

/-- `extractRecommendations`: numbered items after a recommendation header;
when at least one item is found, the remaining text becomes the trimmed
text before the header. -/
def extractRecommendations (text : Str) : List RecommendationItem × Str :=
  match reSearch PATTERNS.recommendationHeader text with
  | none => ([], text)
  | some (hi, hj, _) =>
    let afterHeader := text.drop hj
    let items := (reMatchAll PATTERNS.recItem afterHeader).map (fun m =>
      let itemText := jsTrim ((capStr afterHeader m.2.2 2).getD [])
      { index := parseIntQ ((capStr afterHeader m.2.2 1).getD [])
        text := jsTrim ((splitNl itemText).headD [])
        impact := (reSearch PATTERNS.impact itemText).bind
          (fun im => (capStr itemText im.2.2 1).map jsTrim) : RecommendationItem })
    if items = [] then ([], text)
    else (items, jsTrim (text.take hi))

example :
    extractHeadline "**HEADLINE:** Sales up\n\nrest here".toList =
      (some "Sales up".toList, "rest here".toList) := by decide
example : normalizeKPILabel "gmv".toList = "Revenue".toList := by decide
example :
    (extractKPIs "28,382.95 EGP GMV from 17 successful orders".toList).1.map
      (fun k => (k.label, k.value)) =
      [("Revenue".toList, JVal.num (Rat.divInt 2838295 100)),
       ("Orders".toList, JVal.num 17)] := by decide
example :
    (extractMenuEngineering "• STAR: Cappuccino, Latte\n• STAR: Mocha".toList).1 =
      [⟨"STAR".toList, ["Cappuccino".toList, "Latte".toList, "Mocha".toList]⟩] := by decide
example :
    (extractRecommendations "intro text \nNext steps:\n1. Do a thing\n2. Other".toList).2 =
      "intro text".toList := by decide

/-- Candidate rests of the optional `(?:qty|units?)?` of the alert-line
pattern (alternatives in order, greedy `s?` first, not-taken last). -/
def qtyUnitCands (r : Str) : List Str :=
  (ciPrefixR "qty".toList r).toList ++
  (match ciPrefixR "unit".toList r with
   | some u =>
     match u with
     | c :: t2 => if ciEq c 's' then [t2, u] else [u]
     | [] => [u]
   | none => []) ++ [r]

/-- Tail of the alert-line pattern after the quantity:
`\s*vs\s*([\d.]+)\s*avg\s*([↑↓])\s*([\d.]+%?)\s*(?:→\s*(.+))?$`. -/
def alertAfterQty (r : Str) : Option (Str × Char × Str × Option Str) := do
  let r1 ← ciPrefixR "vs".toList (dropWS r)
  let (avg, r2) ← scanDigitsDots (dropWS r1)
  let r3 ← ciPrefixR "avg".toList (dropWS r2)
  let (d, r4) ←
    match dropWS r3 with
    | c :: t => if c = '↑' ∨ c = '↓' then some (c, t) else none
    | [] => none
  let (pct0, r5) ← scanDigitsDots (dropWS r4)
  let (pct, r6) : Str × Str :=
    match r5 with
    | '%' :: t => (pct0 ++ ['%'], t)
    | _ => (pct0, r5)
  match dropWS r6 with
  | [] => some (avg, d, pct, none)
  | '→' :: r7 =>
    let act := dropWS r7
    if act = [] ∨ act.any (fun c => ¬ isDotCh c) then none
    else some (avg, d, pct, some act)
  | _ => none

/-- The alert-line pattern of `extractAlerts`:
`^[•\-\*]\s*([^:]+):\s*(\d+)\s*(?:qty|units?)?\s*vs\s*([\d.]+)\s*avg\s*([↑↓])\s*([\d.]+%?)\s*(?:→\s*(.+))?$`
with flag `i`.  Returns (item, qty, avg, arrow, pct, action?). -/
def alertMatch (line : Str) : Option (Str × Str × Str × Char × Str × Option Str) :=
  match line with
  | c :: t =>
    if isBulletCh c then
      let r := dropWS t
      let pre := r.takeWhile (· ≠ ':')
      if pre = [] then none
      else
        match r.drop pre.length with
        | ':' :: r1 => do
          let (qty, r2) ← scanDigits (dropWS r1)
          let (avg, d, pct, act) ← (qtyUnitCands (dropWS r2)).findSome? alertAfterQty
          return (pre, qty, avg, d, pct, act)
        | _ => none
    else none
  | [] => none

/-- `line.replace(/^[•\-\*]\s*/, "")`. -/
def stripBullet (line : Str) : Str :=
  match line with
  | c :: t => if isBulletCh c then t.dropWhile (isSpaceCh ·) else line
  | [] => line

/-- One line of the ALERTS block in `extractAlerts`: a structured alert, or
a generic warning for bulleted lines that do not fit (only `•`/`-` bullets,
a quirk of the fallback's `startsWith` test). -/
def alertLineStep (acc : List InsightItem × Str) (line : Str) : List InsightItem × Str :=
  match alertMatch line with
  | some (item, qty, avg, d, pct, act?) =>
    let isDown := d = '↓'
    let action := (act?.map jsTrim).getD []
    let txt :=
      "**".toList ++ jsTrim item ++ "**: ".toList ++ qty ++ " vs ".toList ++ avg ++
      " avg (".toList ++ [d] ++ pct ++ [')'] ++
      (if action = [] then [] else " — ".toList ++ action)
    (acc.1 ++ [⟨txt, some (if isDown then "⚠️" else "📈").toList,
               some (if isDown then "warning" else "info").toList⟩],
     replaceFirst acc.2 line [])
  | none =>
    let tl := jsTrim line
    if tl.head? = some '•' ∨ tl.head? = some '-' then
      let bulletText := jsTrim (stripBullet line)
      if bulletText = [] then acc
      else
        (acc.1 ++ [⟨bulletText, some "⚠️".toList, some "warning".toList⟩],
         replaceFirst acc.2 line [])
    else acc

/-- `extractAlerts`: the bulleted block after an `ALERTS...:` header. -/
def extractAlerts (text : Str) : List InsightItem × Str :=
  match reSearch PATTERNS.alertsSection text with
  | none => ([], text)
  | some (_, _, caps) =>
    let block := (capStr text caps 1).getD []
    let alertLines := (splitNl block).filter (fun l => jsTrim l ≠ [])
    let (alerts, remaining) := alertLines.foldl alertLineStep ([], text)
    let remaining1 :=
      if alerts ≠ [] then reStripFirst PATTERNS.alertsHeader remaining else remaining
    (alerts, jsTrim remaining1)

/-- `/^[^:]+:\s*[\d,]+/.test(itemText)`: looks like an unconsumed KPI line. -/
def insightKpiTest (s : Str) : Bool :=
  let pre := s.takeWhile (· ≠ ':')
  if pre = [] then false
  else
    match s.drop pre.length with
    | ':' :: r =>
      match dropWS r with
      | c :: _ => isDigitCh c ∨ c = ','
      | [] => false
    | _ => false

/-- `/vs\s*[\d.]+\s*avg/i.test(itemText)`: looks like an unconsumed alert. -/
def vsAvgTestAux : Nat → Str → Bool
  | 0, _ => false
  | f+1, s =>
    match s with
    | [] => false
    | _ :: t =>
      match (do
        let r1 ← ciPrefixR "vs".toList s
        let (_, r2) ← scanDigitsDots (dropWS r1)
        ciPrefixR "avg".toList (dropWS r2)) with
      | some _ => true
      | none => vsAvgTestAux f t

def vsAvgTest (s : Str) : Bool := vsAvgTestAux (s.length + 1) s

/-- Classification of one bullet insight: leading-emoji sniff, `slice(2)`
(UTF-16 units) strips a recognised icon. -/
def classifyInsight (itemText : Str) : Str × Option Str × Str :=
  if "🔥".toList.isPrefixOf itemText then
    (jsTrim (drop16 2 itemText), some "🔥".toList, "highlight".toList)
  else if "⚠️".toList.isPrefixOf itemText then
    (jsTrim (drop16 2 itemText), some "⚠️".toList, "warning".toList)
  else if (findSub (lowerStr itemText) "warning".toList).isSome ∨
          (findSub (lowerStr itemText) "alert".toList).isSome then
    (itemText, some "⚠️".toList, "warning".toList)
  else if "✅".toList.isPrefixOf itemText ∨ "🎯".toList.isPrefixOf itemText then
    (jsTrim (drop16 2 itemText), some (take16 2 itemText), "success".toList)
  else (itemText, none, "info".toList)

/-- One bullet match in `extractInsights`. -/
def insightStep (text : Str) (acc : List InsightItem × Str) (m : Nat × Nat × Caps) :
    List InsightItem × Str :=
  let itemText := jsTrim ((capStr text m.2.2 1).getD [])
  if insightKpiTest itemText then acc
  else if vsAvgTest itemText then acc
  else
    let (txt, icon, ty) := classifyInsight itemText
    if 10 < u16Len txt then
      (acc.1 ++ [⟨txt, icon, some ty⟩], replaceFirst acc.2 (subStr text m.1 m.2.1) [])
    else acc

/-- `extractInsights`: remaining bullet lines that look like neither KPIs
nor alerts. -/
def extractInsights (text : Str) : List InsightItem × Str :=
  let (ins, remaining) :=
    (reMatchAll PATTERNS.bulletPoint text).foldl (insightStep text) ([], text)
  (ins, jsTrim remaining)

instance {e a : Type} [DecidableEq e] [DecidableEq a] : DecidableEq (Except e a) := fun x y =>
  match x, y with
  | .ok u, .ok v => if h : u = v then .isTrue (by rw [h]) else .isFalse (by simp [h])
  | .error u, .error v => if h : u = v then .isTrue (by rw [h]) else .isFalse (by simp [h])
  | .ok _, .error _ => .isFalse (by simp)
  | .error _, .ok _ => .isFalse (by simp)

/-- `extractTable`.  `text.match` is called with the *global* table regex,
so it returns the list of whole-match strings; the destructuring
`[fullMatch, headerRow, bodyRows]` therefore reads the second and third
matches, and property access on the missing ones throws `TypeError`. -/
def extractTable (text : Str) : Except JsErr (Option TableData × Str) :=
  let ms := (reMatchAll PATTERNS.markdownTable text).map (fun m => subStr text m.1 m.2.1)
  match ms with
  | [] => .ok (none, text)
  | m0 :: rest =>
    match rest with
    | headerRow :: bodyRows :: _ =>
      let headers := ((headerRow.splitOn '|').map jsTrim).filter (· ≠ [])
      let rows := (splitNl (jsTrim bodyRows)).map
        (fun row => ((row.splitOn '|').map jsTrim).filter (· ≠ []))
      .ok (some ⟨headers, rows⟩, jsTrim (replaceFirst text m0 []))
    | _ => .error .typeError

example :
    (extractAlerts "ALERTS:\n• Cappuccino: 3 qty vs 19.1 avg ↓ 84.3% → check stock".toList).1 =
      [⟨"**Cappuccino**: 3 vs 19.1 avg (↓84.3%) — check stock".toList,
        some "⚠️".toList, some "warning".toList⟩] := by decide
example :
    (extractInsights "• Cappuccino drives 39% of coffee revenue".toList).1 =
      [⟨"Cappuccino drives 39% of coffee revenue".toList, none, some "info".toList⟩] := by
  decide
example :
    extractTable "| a | b |\n|---|\n| 1 | 2 |".toList = .error .typeError := by decide
example :
    (extractTable "no table here".toList) = .ok (none, "no table here".toList) := by decide

/-! ## Orchestrator

`parseResponse` threads a shrinking remaining-text value through the
stages; a stage's output is only kept (and its consumed text only
dropped) when it produced something.  The intermediate values are named
`prText1 … prText7` here so that theorems can speak about them; they are
exactly the successive values of the `text` variable of the source. -/

/-- Truthiness of the extracted headline (`if (headline)`): present and
non-empty. -/
def prHeadTruthy (content : Str) : Bool :=
  match (extractHeadline content).1 with
  | some h => !h.isEmpty
  | none => false

/-- `text` after stage 1 (headline). -/
def prText1 (content : Str) : Str :=
  if prHeadTruthy content then (extractHeadline content).2 else content

def prKpis (content : Str) : List KPICard := (extractKPIs (prText1 content)).1

/-- `text` after stage 2 (KPIs). -/
def prText2 (content : Str) : Str :=
  if prKpis content ≠ [] then (extractKPIs (prText1 content)).2 else prText1 content

def prAlerts (content : Str) : List InsightItem := (extractAlerts (prText2 content)).1

/-- `text` after stage 3 (alerts; always consumed). -/
def prText3 (content : Str) : Str := (extractAlerts (prText2 content)).2

def prChart (content : Str) : List ChartDataPoint := (extractChartData (prText3 content)).1

/-- `text` after stage 4 (chart). -/
def prText4 (content : Str) : Str :=
  if prChart content ≠ [] then (extractChartData (prText3 content)).2 else prText3 content

def prMenu (content : Str) : List MenuEngClass := (extractMenuEngineering (prText4 content)).1

/-- `text` after stage 5 (menu engineering). -/
def prText5 (content : Str) : Str :=
  if prMenu content ≠ [] then (extractMenuEngineering (prText4 content)).2 else prText4 content

def prRecs (content : Str) : List RecommendationItem :=
  (extractRecommendations (prText5 content)).1

/-- `text` after stage 6 (recommendations). -/
def prText6 (content : Str) : Str :=
  if prRecs content ≠ [] then (extractRecommendations (prText5 content)).2 else prText5 content

def prOtherIns (content : Str) : List InsightItem := (extractInsights (prText6 content)).1

/-- Alerts and residual insights are rendered together. -/
def prAllIns (content : Str) : List InsightItem := prAlerts content ++ prOtherIns content

/-- `text` after stage 7 (insights). -/
def prText7 (content : Str) : Str :=
  if prAllIns content ≠ [] then (extractInsights (prText6 content)).2 else prText6 content

/-- Stage 9 cleanup of the leftover text: strip empty section headers,
collapse blank lines, trim. -/
def prCleaned (base : Str) : Str :=
  jsTrim (collapseNl (reStripAll PATTERNS.emptySectionHeader base))

/-- The `sections` list; `order` is assigned by a running counter, which
always equals the number of sections pushed so far. -/
def prSections (content : Str) (tb? : Option TableData) (cleanedText : Str) :
    List ResponseSection :=
  let s1 :=
    if prHeadTruthy content then
      [⟨"headline".toList, none, .headline (((extractHeadline content).1).getD []), 0⟩]
    else []
  let s2 :=
    if prKpis content ≠ [] then
      s1 ++ [⟨"kpis".toList, none, .kpis (prKpis content), s1.length⟩]
    else s1
  let s3 :=
    if prChart content ≠ [] then
      s2 ++ [⟨"chart".toList, none, .chart (prChart content), s2.length⟩]
    else s2
  let s4 :=
    if prMenu content ≠ [] then
      s3 ++ [⟨"menu".toList, some "Menu Engineering".toList, .menu (prMenu content), s3.length⟩]
    else s3
  let s5 :=
    if prRecs content ≠ [] then
      s4 ++ [⟨"recommendations".toList, some "Recommendations".toList,
             .recommendations (prRecs content), s4.length⟩]
    else s4
  let s6 :=
    if prAllIns content ≠ [] then
      s5 ++ [⟨"insights".toList,
             some (if prAlerts content ≠ [] then "Alerts & Insights".toList
                   else "What the data says".toList),
             .insights (prAllIns content), s5.length⟩]
    else s5
  let s7 :=
    match tb? with
    | some tb => s6 ++ [⟨"table".toList, none, .table tb, s6.length⟩]
    | none => s6
  if 50 < u16Len cleanedText then
    s7 ++ [⟨"text".toList, none, .text cleanedText, s7.length⟩]
  else s7

/-- `l.length > 0 ? l : undefined`, as used for every list field of the
result object. -/
def optList {α : Type} (l : List α) : Option (List α) :=
  if l.isEmpty then none else some l

/-- The result object assembled in the success path of `parseResponse`. -/
def prResult (content : Str) (tb? : Option TableData) (afterTable : Str) : ParsedResponse :=
  let text8 := match tb? with | some _ => afterTable | none => prText7 content
  let cleanedText := prCleaned text8
  { headline := if prHeadTruthy content then (extractHeadline content).1 else none
    kpiCards := optList (prKpis content)
    insights := optList (prAllIns content)
    menuEngineering := optList (prMenu content)
    recommendations := optList (prRecs content)
    chartData := optList (prChart content)
    tableData := tb?
    sections := some (prSections content tb? cleanedText)
    rawText := if 50 < u16Len cleanedText then some cleanedText else none }

/-- `parseResponse(content)`: the fixed-order pipeline.  The early return
for falsy/non-string input is `{ rawText: content || "" }` (no `sections`
field).  Stage 8 (`extractTable`) can throw. -/
def parseResponse (input : JsInput) : Except JsErr ParsedResponse :=
  match input with
  | .undef => .ok { rawText := some [] }
  | .nullv => .ok { rawText := some [] }
  | .str content =>
    if content = [] then .ok { rawText := some [] }
    else
      match extractTable (prText7 content) with
      | .error e => .error e
      | .ok (tb?, afterTable) => .ok (prResult content tb? afterTable)

/-- `hasVisualContent(parsed)`. -/
def hasVisualContent (p : ParsedResponse) : Bool :=
  (match p.headline with | some h => !h.isEmpty | none => false) ||
  (match p.kpiCards with | some l => !l.isEmpty | none => false) ||
  (match p.chartData with | some l => !l.isEmpty | none => false) ||
  (match p.menuEngineering with | some l => !l.isEmpty | none => false) ||
  (match p.recommendations with | some l => !l.isEmpty | none => false) ||
  (match p.insights with | some l => !l.isEmpty | none => false) ||
  p.tableData.isSome

example : parseResponse (.str "".toList) = .ok { rawText := some [] } := by decide
example : parseResponse .undef = .ok { rawText := some [] } := by decide
example :
    parseResponse (.str "just prose".toList) = .ok { sections := some [] } := by decide
example :
    (parseResponse (.str "**HEADLINE:** Sales up".toList)).map ParsedResponse.headline =
      .ok (some "Sales up".toList) := by decide

/-! ## Invariant predicates -/

/-- The `seenLabels` set of `extractKPIs` is exactly the lower-cased labels
of the collected cards, without duplicates. -/
def KInv (st : KSt) : Prop :=
  st.seen = st.kpis.map (fun k => lowerStr k.label) ∧ st.seen.Nodup

/-- Invariant of `extractChartData`'s state: one `seenNames` key per point,
no duplicate keys. -/
def CInv (st : CSt) : Prop := st.points.length = st.seen.length ∧ st.seen.Nodup

/-- At most one entry per category. -/
def MInv (l : List MenuEngClass) : Prop := (l.map MenuEngClass.category).Nodup

/-- A trend object is well-formed: its direction is `up` or `down` and its
value is a non-negative number (never `NaN`). -/
def TrOK (tr : Option KTrend) : Prop := ∀ t, tr = some t →
  (t.direction = "up".toList ∨ t.direction = "down".toList) ∧
  ∃ q, t.value = some q ∧ 0 ≤ q

def KTrendInv (st : KSt) : Prop := ∀ k ∈ st.kpis, TrOK k.trend

/-! ## Invariant lemmas -/

theorem foldl_inv {α σ : Type} (P : σ → Prop) (f : σ → α → σ)
    (h : ∀ s a, P s → P (f s a)) : ∀ (l : List α) (s : σ), P s → P (l.foldl f s) := by
  intro l
  induction l with
  | nil => intro s hs; simpa using hs
  | cons a t ih => intro s hs; simpa using ih (f s a) (h s a hs)

theorem nodup_append_singleton {α : Type} {l : List α} {a : α}
    (h : l.Nodup) (ha : a ∉ l) : (l ++ [a]).Nodup := by
  simp [List.nodup_append, h, ha]

theorem addKPI_KInv (st : KSt) (label : Str) (value : JVal) (unit : Str)
    (m : Option Str) (tr : Option KTrend) (h : KInv st) :
    KInv (addKPI st label value unit m tr) := by
  obtain ⟨hmap, hnd⟩ := h
  by_cases hm : lowerStr (normalizeKPILabel label) ∈ st.seen
  · simpa [addKPI, hm] using And.intro hmap hnd
  · constructor
    · show (addKPI st label value unit m tr).seen = _
      simp only [addKPI, if_neg hm]
      simp [hmap]
    · show (addKPI st label value unit m tr).seen.Nodup
      simp only [addKPI, if_neg hm]
      exact nodup_append_singleton hnd hm

theorem kpiLineStep_KInv (st : KSt) (line : Str) (h : KInv st) :
    KInv (kpiLineStep st line) := by
  unfold kpiLineStep
  by_cases h0 : jsTrim line = []
  · simpa [h0] using h
  · simp only [if_neg h0]
    cases h1 : p1Match (jsTrim line) with
    | some v =>
      obtain ⟨a, n⟩ := v
      exact addKPI_KInv _ _ _ _ _ _ (addKPI_KInv _ _ _ _ _ _ h)
    | none =>
    cases h2 : p2Match (jsTrim line) with
    | some a => exact addKPI_KInv _ _ _ _ _ _ h
    | none =>
    cases h3 : p3Match (jsTrim line) with
    | some a => exact addKPI_KInv _ _ _ _ _ _ h
    | none =>
    cases h4 : p4Match (jsTrim line) with
    | some a => exact addKPI_KInv _ _ _ _ _ _ h
    | none =>
    cases h5 : p5Match (jsTrim line) with
    | some a => exact h
    | none =>
    cases h6 : p6Match (jsTrim line) with
    | some v =>
      obtain ⟨lab, raw, u, d, tv⟩ := v
      exact addKPI_KInv _ _ _ _ _ _ h
    | none => exact h

theorem extractKPIs_kpis_eq (text : Str) :
    (extractKPIs text).1 = ((splitNl text).foldl kpiLineStep ⟨[], [], []⟩).kpis := rfl

theorem extractKPIs_labels_nodup (text : Str) :
    ((extractKPIs text).1.map (fun k => lowerStr k.label)).Nodup := by
  have h : KInv ((splitNl text).foldl kpiLineStep ⟨[], [], []⟩) :=
    foldl_inv KInv kpiLineStep (fun s a hs => kpiLineStep_KInv s a hs) _ _ ⟨rfl, List.nodup_nil⟩
  obtain ⟨hmap, hnd⟩ := h
  rw [extractKPIs_kpis_eq, ← hmap]
  exact hnd

theorem chartPush_CInv (st : CSt) (p : ChartDataPoint) (key : Str)
    (h : CInv st) (hk : key ∉ st.seen) :
    CInv ⟨st.points ++ [p], st.seen ++ [key]⟩ := by
  obtain ⟨hl, hnd⟩ := h
  exact ⟨by simp [hl], nodup_append_singleton hnd hk⟩

theorem chartTier1_CInv (st : CSt) (line : Str) (h : CInv st) :
    CInv (chartTier1 st line) := by
  unfold chartTier1
  dsimp only
  split
  · split
    · split
      · split
        · exact h
        · split
          · exact h
          · split
            · exact h
            · split
              · exact h
              · split
                · exact h
                · rename_i hseen _ _ _
                  exact chartPush_CInv st _ _ h hseen
      · exact h
    · exact h
  · exact h

theorem chartTier2_CInv (st : CSt) (m : Str × Str) (h : CInv st) :
    CInv (chartTier2 st m) := by
  unfold chartTier2
  dsimp only
  split
  · exact h
  · split
    · exact h
    · split
      · exact h
      · split
        · exact h
        · rename_i hseen _ _
          exact chartPush_CInv st _ _ h hseen

theorem chartTier3_CInv (text : Str) (st : CSt) (m : Nat × Nat × Caps) (h : CInv st) :
    CInv (chartTier3 text st m) := by
  unfold chartTier3
  dsimp only
  split
  · exact h
  · split
    · exact h
    · rename_i hseen _
      exact chartPush_CInv st _ _ h hseen

theorem chartTier4_CInv (st : CSt) (m : Str × Str) (h : CInv st) :
    CInv (chartTier4 st m) := by
  unfold chartTier4
  dsimp only
  split
  · exact h
  · split
    · exact h
    · split
      · exact h
      · split
        · exact h
        · rename_i hseen _ _
          exact chartPush_CInv st _ _ h hseen

theorem chartCollect_CInv (text : Str) : CInv (chartCollect text) := by
  have h1 : CInv ((splitNl text).foldl chartTier1 ⟨[], []⟩) :=
    foldl_inv CInv chartTier1 (fun s a hs => chartTier1_CInv s a hs) _ _ ⟨rfl, List.nodup_nil⟩
  have h2 : ∀ st : CSt, CInv st →
      CInv (if st.points.length < 3 then (t2Scan text).foldl chartTier2 st else st) := by
    intro st hst
    split
    · exact foldl_inv CInv chartTier2 (fun s a hs => chartTier2_CInv s a hs) _ _ hst
    · exact hst
  have h3 : ∀ st : CSt, CInv st →
      CInv (if st.points.length < 3 then
        (reMatchAll PATTERNS.rankedItem text).foldl (chartTier3 text) st else st) := by
    intro st hst
    split
    · exact foldl_inv CInv (chartTier3 text) (fun s a hs => chartTier3_CInv text s a hs) _ _ hst
    · exact hst
  have h4 : ∀ st : CSt, CInv st →
      CInv (if st.points.length < 3 then (t4Scan text).foldl chartTier4 st else st) := by
    intro st hst
    split
    · exact foldl_inv CInv chartTier4 (fun s a hs => chartTier4_CInv s a hs) _ _ hst
    · exact hst
  exact h4 _ (h3 _ (h2 _ h1))

/-- The length invariant of the returned chart: empty, or between 3 and 8. -/
theorem extractChartData_len (text : Str) :
    (extractChartData text).1 = [] ∨
      (3 ≤ (extractChartData text).1.length ∧ (extractChartData text).1.length ≤ 8) := by
  unfold extractChartData
  dsimp only
  split
  · rename_i hge
    right
    simp only [List.length_take]
    omega
  · left; rfl

theorem menuUpdateFirst_cats (l : List MenuEngClass) (cat : Str) (items : List Str) :
    (menuUpdateFirst l cat items).map MenuEngClass.category = l.map MenuEngClass.category := by
  induction l with
  | nil => rfl
  | cons m rest ih =>
    unfold menuUpdateFirst
    split
    · simp_all
    · simpa using ih

theorem menuStep_MInv (text : Str) (acc : List MenuEngClass × Str) (m : Nat × Nat × Caps)
    (h : MInv acc.1) : MInv (menuStep text acc m).1 := by
  unfold menuStep
  dsimp only
  split
  · rename_i hany
    show MInv (menuUpdateFirst _ _ _)
    unfold MInv
    rw [menuUpdateFirst_cats]
    exact h
  · rename_i hany
    show MInv (acc.1 ++ [_])
    unfold MInv
    rw [List.map_append]
    refine nodup_append_singleton h ?_
    simp only [List.any_eq_true, not_exists, not_and] at hany
    simp only [List.mem_map, not_exists, not_and]
    intro e he
    have := hany e he
    simpa using fun hc => this (by simp [hc])

theorem extractMenuEngineering_cats_nodup (text : Str) :
    ((extractMenuEngineering text).1.map MenuEngClass.category).Nodup := by
  have h : MInv ((reMatchAll PATTERNS.menuClass text).foldl (menuStep text) ([], text)).1 :=
    foldl_inv (fun acc => MInv acc.1) (menuStep text)
      (fun s a hs => menuStep_MInv text s a hs) _ _ (by simp [MInv])
  exact h

/-! ## The tier-1 value choice (claim C4) -/

theorem egpMaxPass1_spec (vs : List ℚ) : ∀ acc : ℚ,
    acc ≤ (vs.map some).foldl
      (fun acc v? => match v? with
        | some v => if acc < v ∧ 100 ≤ v then v else acc
        | none => acc) acc ∧
    ((vs.map some).foldl
      (fun acc v? => match v? with
        | some v => if acc < v ∧ 100 ≤ v then v else acc
        | none => acc) acc = acc ∨
      ((vs.map some).foldl
        (fun acc v? => match v? with
          | some v => if acc < v ∧ 100 ≤ v then v else acc
          | none => acc) acc ∈ vs ∧
       100 ≤ (vs.map some).foldl
        (fun acc v? => match v? with
          | some v => if acc < v ∧ 100 ≤ v then v else acc
          | none => acc) acc)) ∧
    (∀ v ∈ vs, 100 ≤ v → v ≤ (vs.map some).foldl
      (fun acc v? => match v? with
        | some v => if acc < v ∧ 100 ≤ v then v else acc
        | none => acc) acc) := by
  induction vs with
  | nil => intro acc; exact ⟨le_refl _, Or.inl rfl, by simp⟩
  | cons v t ih =>
    intro acc
    simp only [List.map_cons, List.foldl_cons]
    by_cases hc : acc < v ∧ 100 ≤ v
    · obtain ⟨ihle, ihmem, ihub⟩ := ih v
      simp only [if_pos hc]
      refine ⟨le_trans (le_of_lt hc.1) ihle, ?_, ?_⟩
      · rcases ihmem with hacc | hm
        · exact Or.inr ⟨by simp [hacc], by rw [hacc]; exact hc.2⟩
        · exact Or.inr ⟨by simp [hm.1], hm.2⟩
      · intro w hw h100
        rcases List.mem_cons.mp hw with rfl | hwt
        · exact ihle
        · exact ihub w hwt h100
    · obtain ⟨ihle, ihmem, ihub⟩ := ih acc
      simp only [if_neg hc]
      refine ⟨ihle, ?_, ?_⟩
      · rcases ihmem with hacc | hm
        · exact Or.inl hacc
        · exact Or.inr ⟨by simp [hm.1], hm.2⟩
      · intro w hw h100
        rcases List.mem_cons.mp hw with rfl | hwt
        · have hnlt : ¬ acc < w := fun hlt => hc ⟨hlt, h100⟩
          exact le_trans (not_lt.mp hnlt) ihle
        · exact ihub w hwt h100

theorem egpMaxPass1_none (vs : List ℚ) (h : ∀ v ∈ vs, ¬ 100 ≤ v) : ∀ acc : ℚ,
    (vs.map some).foldl
      (fun acc v? => match v? with
        | some v => if acc < v ∧ 100 ≤ v then v else acc
        | none => acc) acc = acc := by
  induction vs with
  | nil => intro acc; rfl
  | cons v t ih =>
    intro acc
    simp only [List.map_cons, List.foldl_cons]
    rw [if_neg (fun hc => h v (by simp) hc.2)]
    exact ih (fun w hw => h w (by simp [hw])) acc

theorem egpMaxPass2_spec (vs : List ℚ) : ∀ acc : ℚ,
    acc ≤ (vs.map some).foldl
      (fun acc v? => match v? with
        | some v => if acc < v then v else acc
        | none => acc) acc ∧
    ((vs.map some).foldl
      (fun acc v? => match v? with
        | some v => if acc < v then v else acc
        | none => acc) acc = acc ∨
      (vs.map some).foldl
        (fun acc v? => match v? with
          | some v => if acc < v then v else acc
          | none => acc) acc ∈ vs) ∧
    (∀ v ∈ vs, v ≤ (vs.map some).foldl
      (fun acc v? => match v? with
        | some v => if acc < v then v else acc
        | none => acc) acc) := by
  induction vs with
  | nil => intro acc; exact ⟨le_refl _, Or.inl rfl, by simp⟩
  | cons v t ih =>
    intro acc
    simp only [List.map_cons, List.foldl_cons]
    by_cases hc : acc < v
    · obtain ⟨ihle, ihmem, ihub⟩ := ih v
      simp only [if_pos hc]
      refine ⟨le_trans hc.le ihle, ?_, ?_⟩
      · rcases ihmem with hacc | hm
        · exact Or.inr (by simp [hacc])
        · exact Or.inr (by simp [hm])
      · intro w hw
        rcases List.mem_cons.mp hw with rfl | hwt
        · exact ihle
        · exact ihub w hwt
    · obtain ⟨ihle, ihmem, ihub⟩ := ih acc
      simp only [if_neg hc]
      refine ⟨ihle, ?_, ?_⟩
      · rcases ihmem with hacc | hm
        · exact Or.inl hacc
        · exact Or.inr (by simp [hm])
      · intro w hw
        rcases List.mem_cons.mp hw with rfl | hwt
        · exact le_trans (not_lt.mp hc) ihle
        · exact ihub w hwt

/-- When the line has an EGP amount of at least 100, the chosen value is the
largest such amount. -/
theorem egpPickValue_ge100 (vs : List ℚ) (v0 : ℚ) (hv0 : v0 ∈ vs) (h100 : 100 ≤ v0) :
    egpPickValue (vs.map some) ∈ vs ∧ 100 ≤ egpPickValue (vs.map some) ∧
      ∀ v ∈ vs, 100 ≤ v → v ≤ egpPickValue (vs.map some) := by
  obtain ⟨hle, hmem, hub⟩ := egpMaxPass1_spec vs 0
  have hm1 : 100 ≤ egpMaxPass1 (vs.map some) := le_trans h100 (hub v0 hv0 h100)
  have hne : ¬ egpMaxPass1 (vs.map some) = 0 := by
    intro h0
    rw [h0] at hm1
    norm_num at hm1
  have hpick : egpPickValue (vs.map some) = egpMaxPass1 (vs.map some) := by
    unfold egpPickValue
    simp [hne]
  rw [hpick]
  refine ⟨?_, hm1, hub⟩
  rcases hmem with h0 | hm
  · exact absurd h0 hne
  · exact hm.1

/-- When no EGP amount reaches 100 but some is positive, the chosen value is
the largest amount found. -/
theorem egpPickValue_no100 (vs : List ℚ) (hno : ∀ v ∈ vs, ¬ 100 ≤ v)
    (v0 : ℚ) (hv0 : v0 ∈ vs) (hpos : 0 < v0) :
    egpPickValue (vs.map some) ∈ vs ∧ ∀ v ∈ vs, v ≤ egpPickValue (vs.map some) := by
  have hm1 : egpMaxPass1 (vs.map some) = 0 := egpMaxPass1_none vs hno 0
  have hpick : egpPickValue (vs.map some) = egpMaxPass2 (vs.map some) := by
    unfold egpPickValue
    simp [hm1]
  obtain ⟨hle, hmem, hub⟩ := egpMaxPass2_spec vs 0
  rw [hpick]
  refine ⟨?_, hub⟩
  rcases hmem with h0 | hm
  · have : 0 < egpMaxPass2 (vs.map some) := lt_of_lt_of_le hpos (hub v0 hv0)
    rw [show egpMaxPass2 (vs.map some) =
      (vs.map some).foldl
        (fun acc v? => match v? with
          | some v => if acc < v then v else acc
          | none => acc) 0 from rfl, h0] at this
    norm_num at this
  · exact hm

/-! ## Trend values (claim C10) -/

theorem char_le_toNat {a b : Char} (h : a ≤ b) : a.toNat ≤ b.toNat := by
  rw [Char.le_def] at h
  exact h

theorem char_ne_of_toNat_ne {c d : Char} (h : c.toNat ≠ d.toNat) : c ≠ d :=
  fun hcd => h (by rw [hcd])

theorem digit_toNat (c : Char) (h : isDigitCh c = true) :
    48 ≤ c.toNat ∧ c.toNat ≤ 57 := by
  simp only [isDigitCh, Bool.decide_and, Bool.and_eq_true, decide_eq_true_eq] at h
  exact ⟨char_le_toNat h.1, char_le_toNat h.2⟩

theorem digit_facts (c : Char) (h : isDigitCh c = true) :
    c ≠ '%' ∧ c ≠ '+' ∧ c ≠ '-' ∧ c ≠ '.' ∧ isSpaceCh c = false := by
  obtain ⟨h1, h2⟩ := digit_toNat c h
  refine ⟨char_ne_of_toNat_ne (show c.toNat ≠ 37 by omega),
          char_ne_of_toNat_ne (show c.toNat ≠ 43 by omega),
          char_ne_of_toNat_ne (show c.toNat ≠ 45 by omega),
          char_ne_of_toNat_ne (show c.toNat ≠ 46 by omega), ?_⟩
  simp only [isSpaceCh, decide_eq_false_iff_not]
  rintro (rfl | rfl | rfl | rfl | rfl | rfl | rfl | rfl | ⟨hl, hr⟩ | rfl | rfl | rfl | rfl | rfl | rfl) <;>
    first
      | exact absurd h (by decide)
      | (have hln : 8192 ≤ c.toNat := char_le_toNat hl
         have hrn : c.toNat ≤ 8202 := char_le_toNat hr
         omega)

theorem isPrefixOf_single_false (c x : Char) (t : Str) (hx : c ≠ x) :
    [c].isPrefixOf (x :: t) = false := by
  simp [List.isPrefixOf, List.isPrefixOf_nil_left, hx]

theorem findSub_not_mem (s : Str) (c : Char) (h : c ∉ s) : findSub s [c] = none := by
  induction s with
  | nil => rfl
  | cons x t ih =>
    have hx : c ≠ x := fun hc => h (by simp [hc])
    have ht : c ∉ t := fun hc => h (by simp [hc])
    simp only [findSub, isPrefixOf_single_false c x t hx, Bool.false_eq_true, if_false,
      ih ht]
    rfl

theorem findSub_head (t : Str) (c : Char) : findSub (c :: t) [c] = some 0 := by
  simp [findSub, List.isPrefixOf]

theorem replaceFirst_not_mem (s : Str) (c : Char) (h : c ∉ s) :
    replaceFirst s [c] [] = s := by
  simp [replaceFirst, findSub_not_mem s c h]

theorem replaceFirst_head (t : Str) (c : Char) : replaceFirst (c :: t) [c] [] = t := by
  simp [replaceFirst, findSub_head]

theorem findSub_append_left (a b : Str) (c : Char) (h : c ∉ a) :
    findSub (a ++ b) [c] = (findSub b [c]).map (· + a.length) := by
  induction a with
  | nil => simp
  | cons x t ih =>
    have hx : c ≠ x := fun hc => h (by simp [hc])
    have ht : c ∉ t := fun hc => h (by simp [hc])
    show findSub (x :: (t ++ b)) [c] = _
    simp only [findSub, isPrefixOf_single_false c x (t ++ b) hx, Bool.false_eq_true, if_false,
      ih ht]
    cases findSub b [c] with
    | none => rfl
    | some i =>
      simp only [Option.map_map, Option.map_some]
      show some (i + t.length + 1) = some (i + (x :: t).length)
      simp only [List.length_cons]
      exact congrArg some (by omega)

theorem replaceFirst_append_last (a : Str) (c : Char) (h : c ∉ a) :
    replaceFirst (a ++ [c]) [c] [] = a := by
  rw [replaceFirst, findSub_append_left a [c] c h, findSub_head]
  show (a ++ [c]).take (0 + a.length) ++ [] ++ (a ++ [c]).drop (0 + a.length + 1) = a
  rw [Nat.zero_add, List.take_left, List.append_nil]
  have hlen : a.length + 1 = (a ++ [c]).length := by simp
  rw [hlen, List.drop_length, List.append_nil]

theorem stripTrendTxt_shape (sgn ds frac pct : Str)
    (hs : sgn = [] ∨ sgn = ['+'] ∨ sgn = ['-'])
    (hd : ∀ x ∈ ds, isDigitCh x = true)
    (hf : frac = [] ∨ ∃ fs, frac = '.' :: fs ∧ ∀ x ∈ fs, isDigitCh x = true)
    (hp : pct = [] ∨ pct = ['%']) :
    stripTrendTxt (sgn ++ ds ++ frac ++ pct) = ds ++ frac := by
  have hds_ne : ∀ c : Char, (∀ x ∈ ds, isDigitCh x = true) → isDigitCh c = false → c ∉ ds :=
    fun c hdd hc hmem => by rw [hdd c hmem] at hc; exact absurd hc (by decide)
  have hfrac_ne : ∀ c : Char, c ≠ '.' → isDigitCh c = false → c ∉ frac := by
    intro c hcdot hc hmem
    rcases hf with rfl | ⟨fs, rfl, hfs⟩
    · simp at hmem
    · rcases List.mem_cons.mp hmem with rfl | hmem2
      · exact hcdot rfl
      · rw [hfs c hmem2] at hc; exact absurd hc (by decide)
  have hpctn : '%' ∉ sgn ++ ds ++ frac := by
    simp only [List.mem_append]
    rintro ((hsg | hdd) | hff)
    · rcases hs with rfl | rfl | rfl <;> simp_all
    · exact hds_ne '%' hd (by decide) hdd
    · exact hfrac_ne '%' (by decide) (by decide) hff
  have hplusn : '+' ∉ ds ++ frac := by
    simp only [List.mem_append]
    rintro (hdd | hff)
    · exact hds_ne '+' hd (by decide) hdd
    · exact hfrac_ne '+' (by decide) (by decide) hff
  have hminusn : '-' ∉ ds ++ frac := by
    simp only [List.mem_append]
    rintro (hdd | hff)
    · exact hds_ne '-' hd (by decide) hdd
    · exact hfrac_ne '-' (by decide) (by decide) hff
  have step1 : replaceFirst (sgn ++ ds ++ frac ++ pct) ['%'] [] = sgn ++ ds ++ frac := by
    rcases hp with rfl | rfl
    · rw [List.append_nil]
      exact replaceFirst_not_mem _ _ hpctn
    · rw [show sgn ++ ds ++ frac ++ ['%'] = (sgn ++ ds ++ frac) ++ ['%'] by simp]
      exact replaceFirst_append_last _ _ hpctn
  unfold stripTrendTxt
  rw [step1]
  rcases hs with rfl | rfl | rfl
  · simp only [List.nil_append]
    rw [replaceFirst_not_mem _ _ hplusn, replaceFirst_not_mem _ _ hminusn]
  · rw [show ['+'] ++ ds ++ frac = '+' :: (ds ++ frac) by simp]
    rw [replaceFirst_head, replaceFirst_not_mem _ _ hminusn]
  · rw [show ['-'] ++ ds ++ frac = '-' :: (ds ++ frac) by simp]
    have hplusn2 : '+' ∉ '-' :: (ds ++ frac) := by
      intro hmem
      rcases List.mem_cons.mp hmem with hc | hc
      · exact absurd hc (by decide)
      · exact hplusn hc
    rw [replaceFirst_not_mem _ _ hplusn2, replaceFirst_head]

theorem parseFloatQ_digit_head (c : Char) (rest : Str) (h : isDigitCh c = true) :
    ∃ q, parseFloatQ (c :: rest) = some q := by
  obtain ⟨hpct, hplus, hminus, hdot, hsp⟩ := digit_facts c h
  unfold parseFloatQ
  rw [List.dropWhile_cons]
  simp only [hsp, Bool.false_eq_true, if_false, if_neg hminus, if_neg hplus]
  have hip : (c :: rest).takeWhile (fun x => isDigitCh x) =
      c :: rest.takeWhile (fun x => isDigitCh x) := by
    rw [List.takeWhile_cons, if_pos h]
  split
  · rw [if_neg (by simp [hip])]
    exact ⟨_, rfl⟩
  · rw [if_neg (by simp [hip])]
    exact ⟨_, rfl⟩

theorem scanFrac_shape (s2 : Str) :
    (scanFrac s2).1 = [] ∨
      ∃ fs, (scanFrac s2).1 = '.' :: fs ∧ ∀ x ∈ fs, isDigitCh x = true := by
  unfold scanFrac
  split
  · dsimp only
    split
    · exact Or.inl rfl
    · exact Or.inr ⟨_, rfl, fun x hx => List.mem_takeWhile_imp hx⟩
  · exact Or.inl rfl

theorem scanPct_shape (s3 : Str) : (scanPct s3).1 = [] ∨ (scanPct s3).1 = ['%'] := by
  unfold scanPct
  split
  · exact Or.inr rfl
  · exact Or.inl rfl

/-- A successfully captured trend value, stripped of `%`, `+`, `-`, parses
to a number. -/
theorem trendTv_parses (sgn ds frac pct : Str)
    (hs : sgn = [] ∨ sgn = ['+'] ∨ sgn = ['-'])
    (hds : ds ≠ []) (hd : ∀ x ∈ ds, isDigitCh x = true)
    (hf : frac = [] ∨ ∃ fs, frac = '.' :: fs ∧ ∀ x ∈ fs, isDigitCh x = true)
    (hp : pct = [] ∨ pct = ['%']) :
    ∃ q, parseFloatQ (stripTrendTxt (sgn ++ ds ++ frac ++ pct)) = some q := by
  rw [stripTrendTxt_shape sgn ds frac pct hs hd hf hp]
  cases ds with
  | nil => exact absurd rfl hds
  | cons d dt =>
    rw [List.cons_append]
    exact parseFloatQ_digit_head d (dt ++ frac) (hd d (by simp))

theorem scanTrendNum_shape (s1 tv r : Str) (h : scanTrendNum s1 = some (tv, r)) :
    ∃ ds frac pct, tv = ds ++ frac ++ pct ∧ ds ≠ [] ∧
      (∀ x ∈ ds, isDigitCh x = true) ∧
      (frac = [] ∨ ∃ fs, frac = '.' :: fs ∧ ∀ x ∈ fs, isDigitCh x = true) ∧
      (pct = [] ∨ pct = ['%']) := by
  simp only [scanTrendNum] at h
  by_cases hds : s1.takeWhile (fun c => isDigitCh c) = []
  · rw [if_pos hds] at h
    simp at h
  · rw [if_neg hds] at h
    have := (Option.some.injEq _ _).mp h
    refine ⟨s1.takeWhile (fun c => isDigitCh c),
            (scanFrac (s1.drop (s1.takeWhile (fun c => isDigitCh c)).length)).1,
            (scanPct (scanFrac (s1.drop (s1.takeWhile (fun c => isDigitCh c)).length)).2).1,
            ?_, hds, fun x hx => List.mem_takeWhile_imp hx, scanFrac_shape _, scanPct_shape _⟩
    exact ((Prod.mk.injEq _ _ _ _).mp this).1.symm

theorem scanTrendVal_parses (s tv r : Str) (h : scanTrendVal s = some (tv, r)) :
    ∃ q, parseFloatQ (stripTrendTxt tv) = some q := by
  rcases s with _ | ⟨c, t⟩
  · simp [scanTrendVal] at h
  · simp only [scanTrendVal] at h
    by_cases hc : c = '+' ∨ c = '-'
    · rw [if_pos hc] at h
      obtain ⟨⟨tv0, r0⟩, hsn, heq⟩ := Option.map_eq_some'.mp h
      obtain ⟨ds, frac, pct, htv0, hds, hd, hf, hp⟩ := scanTrendNum_shape t tv0 r0 hsn
      have htv : tv = [c] ++ ds ++ frac ++ pct := by
        have h1 : c :: tv0 = tv := ((Prod.mk.injEq _ _ _ _).mp heq).1
        rw [← h1, htv0]
        simp
      rw [htv]
      refine trendTv_parses [c] ds frac pct ?_ hds hd hf hp
      rcases hc with rfl | rfl
      · exact Or.inr (Or.inl rfl)
      · exact Or.inr (Or.inr rfl)
    · rw [if_neg hc] at h
      obtain ⟨ds, frac, pct, htv0, hds, hd, hf, hp⟩ := scanTrendNum_shape _ tv r h
      have htv : tv = [] ++ ds ++ frac ++ pct := by rw [htv0]; simp
      rw [htv]
      exact trendTv_parses [] ds frac pct (Or.inl rfl) hds hd hf hp

theorem jsAbs_nonneg (q : ℚ) : 0 ≤ jsAbs q := by
  unfold jsAbs
  split
  · rename_i h
    show (0 : ℚ) ≤ -q
    linarith
  · rename_i h
    exact not_lt.mp h

theorem addKPI_TrendInv (st : KSt) (label : Str) (value : JVal) (unit : Str)
    (m : Option Str) (tr : Option KTrend) (h : KTrendInv st) (htr : TrOK tr) :
    KTrendInv (addKPI st label value unit m tr) := by
  intro k hk
  by_cases hm : lowerStr (normalizeKPILabel label) ∈ st.seen
  · rw [show addKPI st label value unit m tr = st from by simp [addKPI, hm]] at hk
    exact h k hk
  · have hkpis : (addKPI st label value unit m tr).kpis =
        st.kpis ++ [⟨normalizeKPILabel label, value, some (normalizeUnit unit), tr⟩] := by
      simp [addKPI, hm]
    rw [hkpis] at hk
    simp only [List.mem_append, List.mem_singleton] at hk
    rcases hk with hold | rfl
    · exact h k hold
    · exact htr

theorem p6AfterLabel_tv (r n : Str) (u : Option Str) (d : Option Char)
    (tvOpt : Option Str) (h : p6AfterLabel r = some (n, u, d, tvOpt))
    (tv : Str) (htv : tvOpt = some tv) :
    ∃ x pr, scanTrendVal x = some pr ∧ pr.1 = tv := by
  rcases r with _ | ⟨c, r1⟩
  · exact absurd h (by simp [p6AfterLabel])
  · unfold p6AfterLabel at h
    dsimp only at h
    by_cases hc : c = ':'
    · rw [if_neg (by simpa using hc)] at h
      cases hsn : scanNum (dropWS r1) with
      | none => rw [hsn] at h; exact absurd h (by simp)
      | some pr =>
        obtain ⟨nn, r3⟩ := pr
        rw [hsn] at h
        simp only [Option.some.injEq, Prod.mk.injEq] at h
        obtain ⟨-, -, -, htvo⟩ := h
        rw [← htvo] at htv
        obtain ⟨pr2, hpr2, hfst⟩ := Option.map_eq_some'.mp htv
        exact ⟨_, pr2, hpr2, hfst⟩
    · rw [if_pos (by simpa using hc)] at h
      exact absurd h (by simp)

theorem p6Match_tv (s lab raw : Str) (u : Option Str) (d : Option Char)
    (tvOpt : Option Str) (h : p6Match s = some (lab, raw, u, d, tvOpt))
    (tv : Str) (htv : tvOpt = some tv) :
    ∃ x pr, scanTrendVal x = some pr ∧ pr.1 = tv := by
  unfold p6Match at h
  split at h
  · split at h
    · obtain ⟨rest, hrest, hres⟩ := List.exists_of_findSome?_eq_some h
      obtain ⟨out, hout, heq⟩ := Option.map_eq_some'.mp hres
      obtain ⟨nn, uu, dd, tvo⟩ := out
      have h2 := (Prod.mk.injEq _ _ _ _).mp heq
      rw [h2.2] at hout
      exact p6AfterLabel_tv rest raw u d tvOpt hout tv htv
    · exact absurd h (by simp)
  · exact absurd h (by simp)

theorem kpiLineStep_TrendInv (st : KSt) (line : Str) (h : KTrendInv st) :
    KTrendInv (kpiLineStep st line) := by
  unfold kpiLineStep
  by_cases h0 : jsTrim line = []
  · simpa [h0] using h
  · simp only [if_neg h0]
    cases h1 : p1Match (jsTrim line) with
    | some v =>
      obtain ⟨a, n⟩ := v
      exact addKPI_TrendInv _ _ _ _ _ _ (addKPI_TrendInv _ _ _ _ _ _ h (by simp [TrOK]))
        (by simp [TrOK])
    | none =>
    cases h2 : p2Match (jsTrim line) with
    | some a => exact addKPI_TrendInv _ _ _ _ _ _ h (by simp [TrOK])
    | none =>
    cases h3 : p3Match (jsTrim line) with
    | some a => exact addKPI_TrendInv _ _ _ _ _ _ h (by simp [TrOK])
    | none =>
    cases h4 : p4Match (jsTrim line) with
    | some a => exact addKPI_TrendInv _ _ _ _ _ _ h (by simp [TrOK])
    | none =>
    cases h5 : p5Match (jsTrim line) with
    | some a => exact h
    | none =>
    cases h6 : p6Match (jsTrim line) with
    | some v =>
      obtain ⟨lab, raw, u, d, tvOpt⟩ := v
      refine addKPI_TrendInv _ _ _ _ _ _ h ?_
      intro t ht
      cases d with
      | none => simp at ht
      | some dc =>
        cases tvOpt with
        | none => simp at ht
        | some tv =>
          simp only [Option.some.injEq] at ht
          constructor
          · rw [← ht]
            by_cases hdir : dc = '↑'
            · exact Or.inl (by simp [hdir])
            · exact Or.inr (by simp [hdir])
          · obtain ⟨x, pr, hscan, hfst⟩ := p6Match_tv _ _ _ _ _ _ h6 tv rfl
            obtain ⟨q, hq⟩ := scanTrendVal_parses x pr.1 pr.2 (by rw [hscan])
            refine ⟨jsAbs q, ?_, jsAbs_nonneg q⟩
            rw [← ht]
            simp only
            rw [hfst] at hq
            rw [hq]
            rfl
    | none => exact h

theorem extractKPIs_TrendOK (text : Str) :
    ∀ k ∈ (extractKPIs text).1, TrOK k.trend := by
  have h : KTrendInv ((splitNl text).foldl kpiLineStep ⟨[], [], []⟩) :=
    foldl_inv KTrendInv kpiLineStep (fun s a hs => kpiLineStep_TrendInv s a hs) _ _
      (by intro k hk; simp at hk)
  rw [extractKPIs_kpis_eq]
  exact h

/-- `optList` keeps a list exactly when it is non-empty. -/
theorem optList_eq_some {α : Type} (l : List α) (hl : l ≠ []) : optList l = some l := by
  unfold optList
  rw [if_neg (by simpa using hl)]

theorem optList_cases {α : Type} (l : List α) :
    optList l = some l ∧ l ≠ [] ∨ optList l = none ∧ l = [] := by
  cases l with
  | nil => exact Or.inr ⟨rfl, rfl⟩
  | cons a t => exact Or.inl ⟨rfl, by simp⟩

/-- In a successful parse, the structured fields are exactly the stage
outputs, kept only when non-empty. -/
theorem parseResponse_ok_fields (content : Str) (r : ParsedResponse)
    (hne : content ≠ []) (hok : parseResponse (.str content) = .ok r) :
    r.kpiCards = optList (prKpis content) ∧
    r.chartData = optList (prChart content) ∧
    r.menuEngineering = optList (prMenu content) ∧
    r.insights = optList (prAllIns content) ∧
    r.recommendations = optList (prRecs content) := by
  unfold parseResponse at hok
  dsimp only at hok
  rw [if_neg hne] at hok
  cases htb : extractTable (prText7 content) with
  | error e =>
    rw [htb] at hok
    dsimp only at hok
    exact Except.noConfusion hok
  | ok pr =>
    obtain ⟨tb?, afterTable⟩ := pr
    rw [htb] at hok
    dsimp only at hok
    injection hok with h2
    rw [← h2]
    unfold prResult
    dsimp only
    exact ⟨rfl, rfl, rfl, rfl, rfl⟩

/-- Empty input short-circuits to the bare `{ rawText: "" }` object. -/
theorem parseResponse_empty (r : ParsedResponse)
    (hok : parseResponse (.str []) = .ok r) : r = { rawText := some [] } := by
  rw [show parseResponse (.str []) = .ok { rawText := some [] } from rfl] at hok
  injection hok with h
  exact h.symm

/-- A populated `kpiCards` field is exactly the non-empty KPI stage output. -/
theorem parseResponse_kpiCards_some (content : Str) (r : ParsedResponse) (l : List KPICard)
    (hok : parseResponse (.str content) = .ok r) (hl : r.kpiCards = some l) :
    l = prKpis content ∧ l ≠ [] := by
  by_cases hc : content = []
  · subst hc
    rw [parseResponse_empty r hok] at hl
    exact Option.noConfusion hl
  · obtain ⟨hk, -, -, -, -⟩ := parseResponse_ok_fields content r hc hok
    rw [hl] at hk
    rcases optList_cases (prKpis content) with ⟨he, hne⟩ | ⟨he, -⟩
    · rw [he] at hk
      injection hk with h
      exact ⟨h, by rw [h]; exact hne⟩
    · rw [he] at hk
      exact Option.noConfusion hk

/-- A populated `chartData` field is exactly the non-empty chart stage output. -/
theorem parseResponse_chartData_some (content : Str) (r : ParsedResponse)
    (l : List ChartDataPoint)
    (hok : parseResponse (.str content) = .ok r) (hl : r.chartData = some l) :
    l = prChart content ∧ l ≠ [] := by
  by_cases hc : content = []
  · subst hc
    rw [parseResponse_empty r hok] at hl
    exact Option.noConfusion hl
  · obtain ⟨-, hk, -, -, -⟩ := parseResponse_ok_fields content r hc hok
    rw [hl] at hk
    rcases optList_cases (prChart content) with ⟨he, hne⟩ | ⟨he, -⟩
    · rw [he] at hk
      injection hk with h
      exact ⟨h, by rw [h]; exact hne⟩
    · rw [he] at hk
      exact Option.noConfusion hk

/-- A populated `menuEngineering` field is exactly the non-empty menu stage
output. -/
theorem parseResponse_menu_some (content : Str) (r : ParsedResponse)
    (l : List MenuEngClass)
    (hok : parseResponse (.str content) = .ok r) (hl : r.menuEngineering = some l) :
    l = prMenu content ∧ l ≠ [] := by
  by_cases hc : content = []
  · subst hc
    rw [parseResponse_empty r hok] at hl
    exact Option.noConfusion hl
  · obtain ⟨-, -, hk, -, -⟩ := parseResponse_ok_fields content r hc hok
    rw [hl] at hk
    rcases optList_cases (prMenu content) with ⟨he, hne⟩ | ⟨he, -⟩
    · rw [he] at hk
      injection hk with h
      exact ⟨h, by rw [h]; exact hne⟩
    · rw [he] at hk
      exact Option.noConfusion hk

/-- `addKPI` on an unseen (normalized, lower-cased) label appends the card
and records the label. -/
theorem addKPI_not_seen (st : KSt) (label : Str) (value : JVal) (unit : Str)
    (m : Option Str) (tr : Option KTrend)
    (h : lowerStr (normalizeKPILabel label) ∉ st.seen) :
    (addKPI st label value unit m tr).kpis =
        st.kpis ++ [⟨normalizeKPILabel label, value, some (normalizeUnit unit), tr⟩] ∧
    (addKPI st label value unit m tr).seen =
        st.seen ++ [lowerStr (normalizeKPILabel label)] := by
  unfold addKPI
  dsimp only
  rw [if_neg h]
  exact ⟨rfl, rfl⟩

/-- `addKPI` never removes a collected card. -/
theorem addKPI_mem (st : KSt) (label : Str) (value : JVal) (unit : Str)
    (m : Option Str) (tr : Option KTrend) (k : KPICard) (h : k ∈ st.kpis) :
    k ∈ (addKPI st label value unit m tr).kpis := by
  unfold addKPI
  dsimp only
  by_cases hm : lowerStr (normalizeKPILabel label) ∈ st.seen
  · rw [if_pos hm]; exact h
  · rw [if_neg hm]; exact List.mem_append_left _ h

/-- The per-line KPI step never removes a collected card. -/
theorem kpiLineStep_mem (st : KSt) (line : Str) (k : KPICard) (h : k ∈ st.kpis) :
    k ∈ (kpiLineStep st line).kpis := by
  unfold kpiLineStep
  by_cases h0 : jsTrim line = []
  · simpa [h0] using h
  · simp only [if_neg h0]
    cases h1 : p1Match (jsTrim line) with
    | some v =>
      obtain ⟨a, n⟩ := v
      exact addKPI_mem _ _ _ _ _ _ _ (addKPI_mem _ _ _ _ _ _ _ h)
    | none =>
    cases h2 : p2Match (jsTrim line) with
    | some a => exact addKPI_mem _ _ _ _ _ _ _ h
    | none =>
    cases h3 : p3Match (jsTrim line) with
    | some a => exact addKPI_mem _ _ _ _ _ _ _ h
    | none =>
    cases h4 : p4Match (jsTrim line) with
    | some a => exact addKPI_mem _ _ _ _ _ _ _ h
    | none =>
    cases h5 : p5Match (jsTrim line) with
    | some a => exact h
    | none =>
    cases h6 : p6Match (jsTrim line) with
    | some v =>
      obtain ⟨lab, raw, u, d, tv⟩ := v
      exact addKPI_mem _ _ _ _ _ _ _ h
    | none => exact h

/-- A line matching the sentence pattern (pattern 1) adds the Revenue card
and the Orders card, provided neither label was seen before. -/
theorem kpiLineStep_p1 (st : KSt) (line a n : Str)
    (hp1 : p1Match (jsTrim line) = some (a, n))
    (hr : "revenue".toList ∉ st.seen) (ho : "orders".toList ∉ st.seen) :
    (⟨"Revenue".toList, toJVal (parseAmount a), some "EGP".toList, none⟩ : KPICard)
        ∈ (kpiLineStep st line).kpis ∧
    (⟨"Orders".toList, toJVal (parseIntQ n), some "EGP".toList, none⟩ : KPICard)
        ∈ (kpiLineStep st line).kpis := by
  have htl : ¬ jsTrim line = [] := by
    intro h0
    rw [h0] at hp1
    exact Option.noConfusion ((show p1Match [] = none from by decide) ▸ hp1)
  unfold kpiLineStep
  simp only [if_neg htl, hp1]
  have hrev : lowerStr (normalizeKPILabel ("Revenue".toList)) ∉ st.seen := by
    rw [show lowerStr (normalizeKPILabel ("Revenue".toList)) = ("revenue".toList : Str)
      from by decide]
    exact hr
  obtain ⟨hk1, hs1⟩ := addKPI_not_seen st ("Revenue".toList) (toJVal (parseAmount a))
    ("EGP".toList) (some (jsTrim line)) none hrev
  have hord : lowerStr (normalizeKPILabel ("Orders".toList)) ∉
      (addKPI st ("Revenue".toList) (toJVal (parseAmount a)) ("EGP".toList)
        (some (jsTrim line)) none).seen := by
    rw [hs1, show lowerStr (normalizeKPILabel ("Orders".toList)) = ("orders".toList : Str)
      from by decide]
    simp only [List.mem_append, List.mem_singleton]
    rintro (hin | heq)
    · exact ho hin
    · exact absurd heq (by decide)
  obtain ⟨hk2, -⟩ := addKPI_not_seen _ ("Orders".toList) (toJVal (parseIntQ n)) []
    (some (jsTrim line)) none hord
  rw [hk2, hk1]
  rw [show normalizeKPILabel ("Revenue".toList) = ("Revenue".toList : Str) from by decide,
      show normalizeUnit ("EGP".toList) = ("EGP".toList : Str) from by decide,
      show normalizeKPILabel ("Orders".toList) = ("Orders".toList : Str) from by decide,
      show normalizeUnit ([] : Str) = ("EGP".toList : Str) from by decide]
  constructor
  · exact List.mem_append_left _ (List.mem_append_right _ (List.mem_singleton_self _))
  · exact List.mem_append_right _ (List.mem_singleton_self _)

/-! ## Claims -/

/-- C1: the specification says `parseResponse` never throws for any input.
This is false: a text whose remainder holds exactly one markdown table makes
`extractTable` destructure the `String.match` result of a `/g` regex (a list
of whole-match strings) as `[, headerRow, bodyRows]`, so `headerRow` is
`undefined` and `headerRow.split` throws a `TypeError`.  The theorem shows a
concrete single-table input on which the parse throws. -/
theorem c1_single_table_throws :
    parseResponse
      (.str "Here are the results:\n\n| Item | Qty |\n| --- | --- |\n| Steak | 4 |".toList) =
      .error .typeError := by decide

/-- C2: `parseResponse("")`, `parseResponse(undefined)` and
`parseResponse("just prose")` all return without throwing; `"just prose"`
yields a result with a (empty) `sections` array, while `""` and `undefined`
short-circuit to `{ rawText: "" }`, which has no `sections` array at all
(amended: the original claim asserted a `sections` array for all three). -/
theorem c2_basic_inputs :
    parseResponse (.str "".toList) = .ok { rawText := some [] } ∧
    parseResponse .undef = .ok { rawText := some [] } ∧
    parseResponse (.str "just prose".toList) = .ok { sections := some [] } := by
  exact ⟨by decide, by decide, by decide⟩

/-- C2 counterexample: for `""` and for `undefined` the result carries no
`sections` field (it is `undefined`), refuting the claim that every one of
the three calls returns an object with a `sections` array. -/
theorem c2_no_sections_for_empty :
    (parseResponse (.str "".toList)).map ParsedResponse.sections = .ok none ∧
    (parseResponse .undef).map ParsedResponse.sections = .ok none := by
  exact ⟨by decide, by decide⟩

/-- C3 (amended): a line of the sentence form `"<amount> EGP GMV from <n>
(successful )?orders"` emits both the Revenue KPI (value = parsed amount) and
the Orders KPI (value = parsed integer) from that single line — provided
neither label was already emitted by an earlier line of the same text (the
original claim omitted the first-occurrence-wins dedup, see the
counterexample). -/
theorem c3_sentence_line_kpis (pre post : List Str) (text l a n : Str)
    (hsplit : splitNl text = pre ++ l :: post)
    (hp1 : p1Match (jsTrim l) = some (a, n))
    (hr : "revenue".toList ∉ (pre.foldl kpiLineStep ⟨[], [], []⟩).seen)
    (ho : "orders".toList ∉ (pre.foldl kpiLineStep ⟨[], [], []⟩).seen) :
    (⟨"Revenue".toList, toJVal (parseAmount a), some "EGP".toList, none⟩ : KPICard)
        ∈ (extractKPIs text).1 ∧
    (⟨"Orders".toList, toJVal (parseIntQ n), some "EGP".toList, none⟩ : KPICard)
        ∈ (extractKPIs text).1 := by
  rw [extractKPIs_kpis_eq, hsplit, List.foldl_append, List.foldl_cons]
  have h12 := kpiLineStep_p1 (pre.foldl kpiLineStep ⟨[], [], []⟩) l a n hp1 hr ho
  constructor
  · exact foldl_inv
      (fun s => (⟨"Revenue".toList, toJVal (parseAmount a), some "EGP".toList, none⟩ :
        KPICard) ∈ s.kpis)
      kpiLineStep (fun s x hs => kpiLineStep_mem s x _ hs) post _ h12.1
  · exact foldl_inv
      (fun s => (⟨"Orders".toList, toJVal (parseIntQ n), some "EGP".toList, none⟩ :
        KPICard) ∈ s.kpis)
      kpiLineStep (fun s x hs => kpiLineStep_mem s x _ hs) post _ h12.2

/-- C3 witness: the sentence line of the test suite, alone in the text,
yields exactly the two cards. -/
theorem c3_sentence_line_kpis_witness :
    (⟨"Revenue".toList, toJVal (parseAmount "28,382.95".toList), some "EGP".toList, none⟩ :
        KPICard)
      ∈ (extractKPIs "28,382.95 EGP GMV from 17 successful orders".toList).1 ∧
    (⟨"Orders".toList, toJVal (parseIntQ "17".toList), some "EGP".toList, none⟩ : KPICard)
      ∈ (extractKPIs "28,382.95 EGP GMV from 17 successful orders".toList).1 :=
  c3_sentence_line_kpis [] [] "28,382.95 EGP GMV from 17 successful orders".toList
    "28,382.95 EGP GMV from 17 successful orders".toList
    "28,382.95".toList "17".toList (by decide) (by decide) (by decide) (by decide)

/-- C3 counterexample: when an earlier line already emitted a Revenue KPI,
the sentence line's amount (28382.95) is dropped — the result keeps Revenue =
100 from the first line, so the original unconditional claim fails. -/
theorem c3_duplicate_revenue_dropped :
    (parseResponse (.str "• GMV: 100 EGP\n28,382.95 EGP GMV from 17 successful orders".toList)).map
        (fun r => (r.kpiCards.getD []).map (fun k => (k.label, k.value))) =
      .ok [("Revenue".toList, JVal.num 100), ("Orders".toList, JVal.num 17)] ∧
    JVal.num 100 ≠ JVal.num (Rat.divInt 2838295 100) := by
  exact ⟨by decide, by decide⟩

/-- C4: per candidate line, the chosen chart value is the largest EGP amount
of at least 100; when no amount reaches 100, the largest (positive) amount is
used.  On the screenshot line `"Steak & Fries: 4 units → 2,600 EGP GMV
(22%)"` the value is 2600, not 22. -/
theorem c4_egp_value_choice :
    (∀ (vs : List ℚ) (v0 : ℚ), v0 ∈ vs → 100 ≤ v0 →
      egpPickValue (vs.map some) ∈ vs ∧ 100 ≤ egpPickValue (vs.map some) ∧
        ∀ v ∈ vs, 100 ≤ v → v ≤ egpPickValue (vs.map some)) ∧
    (∀ (vs : List ℚ), (∀ v ∈ vs, ¬ 100 ≤ v) → ∀ v0 ∈ vs, 0 < v0 →
      egpPickValue (vs.map some) ∈ vs ∧ ∀ v ∈ vs, v ≤ egpPickValue (vs.map some)) ∧
    ((extractChartData ("• 🔥 Steak & Fries: 4 units → 2,600 EGP GMV (22%)\n• 🔥 Roast Beef Sandwich: 4 units → 1,140 EGP GMV (22%)\n• Steak Bordalise: 3 units → 2,250 EGP GMV (17%)".toList)).1.map
        (fun p => (p.name, p.value))) =
      [("Steak & Fries".toList, (2600 : ℚ)), ("Roast Beef Sandwich".toList, (1140 : ℚ)),
       ("Steak Bordalise".toList, (2250 : ℚ))] := by
  refine ⟨fun vs v0 hv0 h100 => egpPickValue_ge100 vs v0 hv0 h100,
    fun vs hno v0 hv0 hpos => egpPickValue_no100 vs hno v0 hv0 hpos, by decide⟩

/-- C5 (amended): a populated `chartData` always has between 3 and 8 entries
(fewer than 3 collected points discard the chart, at most 8 are kept), and
the collector's dedup keys — the lower-cased **full** names — are unique.
The *displayed* names are truncated to 17 units + `"..."` afterwards and can
collide, which is what the counterexample shows (the original claim asserted
uniqueness of the entry names themselves). -/
theorem c5_chart_size :
    (∀ content r l, parseResponse (.str content) = .ok r → r.chartData = some l →
      3 ≤ l.length ∧ l.length ≤ 8) ∧
    (∀ text, (extractChartData text).1 = [] ∨
      (3 ≤ (extractChartData text).1.length ∧ (extractChartData text).1.length ≤ 8)) ∧
    (∀ text, (chartCollect text).seen.Nodup) := by
  refine ⟨?_, extractChartData_len, fun text => (chartCollect_CInv text).2⟩
  intro content r l hok hl
  obtain ⟨he, hne⟩ := parseResponse_chartData_some content r l hok hl
  rcases extractChartData_len (prText3 content) with h0 | hb
  · exact absurd (he.trans h0) hne
  · rw [he]
    exact hb

/-- C5 counterexample: two long names that agree on their first 17 UTF-16
units survive dedup (their full lower-cased names differ) but truncate to the
same displayed name, so the chart's entry names are not unique. -/
theorem c5_truncated_name_collision :
    (parseResponse (.str "• Aaaaaaaaaaaaaaaaaaaa One: 500 EGP\n• Aaaaaaaaaaaaaaaaaaaa Two: 600 EGP\n• Bbb: 700 EGP".toList)).map
        (fun r => r.chartData.map (List.map ChartDataPoint.name)) =
      .ok (some ["Aaaaaaaaaaaaaaaaa...".toList, "Aaaaaaaaaaaaaaaaa...".toList,
                 "Bbb".toList]) ∧
    ¬ (["Aaaaaaaaaaaaaaaaa...".toList, "Aaaaaaaaaaaaaaaaa...".toList,
        ("Bbb".toList : Str)].map lowerStr).Nodup := by
  exact ⟨by decide, by decide⟩

/-- C6: `normalizeKPILabel` maps `gmv`, `revenue` and `total sales` to the
canonical `Revenue`; in any successful parse the KPI labels are unique (one
card per normalized, lower-cased label), and a text mentioning the same
metric under two synonyms keeps only the first occurrence. -/
theorem c6_label_normalization :
    normalizeKPILabel "gmv".toList = "Revenue".toList ∧
    normalizeKPILabel "revenue".toList = "Revenue".toList ∧
    normalizeKPILabel "total sales".toList = "Revenue".toList ∧
    (∀ content r l, parseResponse (.str content) = .ok r → r.kpiCards = some l →
      (l.map (fun k => lowerStr k.label)).Nodup) ∧
    ((extractKPIs "• GMV: 100 EGP\n• Total sales: 200 EGP".toList).1.map
      (fun k => (k.label, k.value))) = [("Revenue".toList, JVal.num 100)] := by
  refine ⟨by decide, by decide, by decide, ?_, by decide⟩
  intro content r l hok hl
  obtain ⟨he, -⟩ := parseResponse_kpiCards_some content r l hok hl
  rw [he]
  exact extractKPIs_labels_nodup (prText1 content)

/-- C7 (amended): when the recommendation header matches and at least one
numbered item follows, the remaining text handed to all later stages is the
**trimmed** text preceding the header (`text.slice(0, idx).trim()`); the
original claim said "exactly the text preceding the header", which fails on
trailing whitespace, see the counterexample. -/
theorem c7_remaining_prefix (text : Str) (hi hj : Nat) (caps : Caps)
    (hs : reSearch PATTERNS.recommendationHeader text = some (hi, hj, caps))
    (hne : (extractRecommendations text).1 ≠ []) :
    (extractRecommendations text).2 = jsTrim (text.take hi) := by
  unfold extractRecommendations at hne ⊢
  rw [hs] at hne ⊢
  dsimp only at hne ⊢
  split at hne
  · exact absurd rfl hne
  · rename_i hitems
    rw [if_neg hitems]

/-- C7 witness: a concrete document with a matched header and one numbered
item. -/
theorem c7_remaining_prefix_witness :
    (extractRecommendations "intro text \nNext steps:\n1. Do a thing".toList).2 =
      jsTrim ("intro text \nNext steps:\n1. Do a thing".toList.take 12) :=
  c7_remaining_prefix "intro text \nNext steps:\n1. Do a thing".toList 12 24 []
    (by decide) (by decide)

/-- C7 counterexample: the text preceding the header is `"intro text \n"`,
but the remaining text for later stages is the trimmed `"intro text"`, so the
remainder is not *exactly* the preceding text. -/
theorem c7_remaining_is_trimmed :
    reSearch PATTERNS.recommendationHeader "intro text \nNext steps:\n1. Do a thing".toList =
      some (12, 24, []) ∧
    "intro text \nNext steps:\n1. Do a thing".toList.take 12 = "intro text \n".toList ∧
    (extractRecommendations "intro text \nNext steps:\n1. Do a thing".toList).2 =
      "intro text".toList ∧
    ("intro text".toList : Str) ≠ "intro text \n".toList := by
  exact ⟨by decide, by decide, by decide, by decide⟩

/-- C8: a successful parse has at most one menu-engineering entry per
category, and the items of later lines naming an already-present category are
appended to that entry (two `STAR:` lines produce one entry holding the
concatenation). -/
theorem c8_menu_categories :
    (∀ content r l, parseResponse (.str content) = .ok r → r.menuEngineering = some l →
      (l.map MenuEngClass.category).Nodup) ∧
    (extractMenuEngineering "• STAR: Cappuccino, Latte\n• STAR: Mocha".toList).1 =
      [⟨"STAR".toList, ["Cappuccino".toList, "Latte".toList, "Mocha".toList]⟩] := by
  refine ⟨?_, by decide⟩
  intro content r l hok hl
  obtain ⟨he, -⟩ := parseResponse_menu_some content r l hok hl
  rw [he]
  exact extractMenuEngineering_cats_nodup (prText4 content)

/-- C9: each supported headline phrasing (`**HEADLINE:** X`, `## Headline:
X`, `Headline:X` with no space) yields `headline = X` with bold markers
removed; with two headline lines only the first counts; and when no pattern
matches, no headline is produced and the text passes through unchanged. -/
theorem c9_headline_phrasings :
    (parseResponse (.str "**HEADLINE:** Beef down\n\nMore content.".toList)).map
        ParsedResponse.headline = .ok (some "Beef down".toList) ∧
    (parseResponse (.str "## Headline: Coffee up\n\nOther.".toList)).map
        ParsedResponse.headline = .ok (some "Coffee up".toList) ∧
    (parseResponse (.str "Headline:Beef sales rise\n\nNext.".toList)).map
        ParsedResponse.headline = .ok (some "Beef sales rise".toList) ∧
    (parseResponse (.str "Headline: First one\nHeadline: Second one".toList)).map
        ParsedResponse.headline = .ok (some "First one".toList) ∧
    (∀ text, (extractHeadline text).1 = none → (extractHeadline text).2 = text) := by
  refine ⟨by decide, by decide, by decide, by decide, ?_⟩
  intro text hnone
  unfold extractHeadline at hnone ⊢
  cases hs : reSearch PATTERNS.headline text with
  | some t =>
    obtain ⟨i, j, caps⟩ := t
    rw [hs] at hnone
    dsimp only at hnone
    exact Option.noConfusion hnone
  | none =>
    rw [hs] at hnone
    dsimp only at hnone ⊢
    cases hb : reSearch PATTERNS.boldHeadline text with
    | some t =>
      obtain ⟨i, j, caps⟩ := t
      rw [hb] at hnone
      dsimp only at hnone ⊢
      by_cases hi : i = 0
      · rw [if_pos hi] at hnone
        exact Option.noConfusion hnone
      · rw [if_neg hi]
    | none =>
      rfl

/-- C10: every KPI trend a successful parse produces points `up` or `down`
(the `neutral` direction of the type is never emitted) and its value is a
non-negative magnitude; a concrete trend-bearing line shows the invariant is
not vacuous. -/
theorem c10_trend_wellformed :
    (∀ content r l, parseResponse (.str content) = .ok r → r.kpiCards = some l →
      ∀ k ∈ l, ∀ t, k.trend = some t →
        (t.direction = "up".toList ∨ t.direction = "down".toList) ∧
        ∃ q, t.value = some q ∧ 0 ≤ q) ∧
    ((extractKPIs "• GMV: 101 EGP ↑ 5%".toList).1.map (fun k => k.trend)) =
      [some ⟨"up".toList, some (5 : ℚ), some "vs last period".toList⟩] := by
  refine ⟨?_, by decide⟩
  intro content r l hok hl k hk t ht
  obtain ⟨he, -⟩ := parseResponse_kpiCards_some content r l hok hl
  rw [he] at hk
  exact extractKPIs_TrendOK (prText1 content) k hk t ht
